import Mathlib

/-!
Verification of the kcsp proxy server core (src/server.js).

The development shallowly embeds the cache-coordination pipeline of
`server.js`: `makeAPIRequest`, `getRequestId`, `removeProxyHeaders`,
`renderErrorPage`'s status translation, and the JSON (de)serialization that
`makeAPIRequest` performs through `JSON.stringify` / `JSON.parse` with the
Buffer reviver.  External collaborators (the `db` module, the `request`
library, `querystring`) are modelled as parameters or as already-parsed
inputs, matching their documented contracts.
-/

namespace Kcsp

/-- JavaScript values that can flow through `JSON.parse` / `JSON.stringify`
in `makeAPIRequest`.  `buf` stands for a Node `Buffer` (a byte array); it is
produced by the reviver and consumed by `JSON.stringify` via `Buffer.toJSON`.
Numbers are modelled at integer precision: the server only ever stores
integers (status codes and bytes), and the parser below keeps the integer
part of any fractional literal it accepts. -/
inductive Json where
  | null
  | bool (b : Bool)
  | num (n : Int)
  | str (s : String)
  | arr (elems : List Json)
  | obj (fields : List (String × Json))
  | buf (bytes : List Nat)

/-- Digit accumulator for `natToChars`; the fuel argument only bounds the
number of divisions and `natToChars` always supplies enough. -/
def natToCharsAux : Nat → Nat → List Char → List Char
  | 0, _, acc => acc
  | fuel + 1, n, acc =>
    if n < 10 then Nat.digitChar n :: acc
    else natToCharsAux fuel (n / 10) (Nat.digitChar (n % 10) :: acc)

/-- Decimal digits of a natural number, most significant first; the model of
JavaScript number-to-string conversion for the nonnegative integers the
server serializes. -/
def natToChars (n : Nat) : List Char := natToCharsAux (n + 1) n []

/-- Decimal representation of an integer (sign then digits). -/
def intToChars (i : Int) : List Char :=
  if i < 0 then '-' :: natToChars i.natAbs else natToChars i.toNat

/-- How `JSON.stringify` escapes a single character inside a string
literal. -/
def escapeChar (c : Char) : List Char :=
  if c = '"' then ['\\', '"']
  else if c = '\\' then ['\\', '\\']
  else if c = '\x08' then ['\\', 'b']
  else if c = '\t' then ['\\', 't']
  else if c = '\n' then ['\\', 'n']
  else if c = '\x0c' then ['\\', 'f']
  else if c = '\r' then ['\\', 'r']
  else if c.toNat < 32 then
    ['\\', 'u', '0', '0', Nat.digitChar (c.toNat / 16), Nat.digitChar (c.toNat % 16)]
  else [c]

/-- Escape every character of a string body. -/
def escChars : List Char → List Char
  | [] => []
  | c :: cs => escapeChar c ++ escChars cs

/-- A JSON string literal: quote, escaped body, quote. -/
def strLitChars (s : String) : List Char :=
  '"' :: (escChars s.data ++ ['"'])

/-- Comma-separated decimal numbers, the serialization of a Buffer's
`data` array. -/
def numList : List Nat → List Char
  | [] => []
  | [b] => natToChars b
  | b :: c :: rest => natToChars b ++ ',' :: numList (c :: rest)

mutual

/-- Character stream produced by `JSON.stringify` (no whitespace, insertion
order preserved).  A `buf` serializes through `Buffer.toJSON` as
`\x7b"type":"Buffer","data":[...]\x7d`. -/
def stringifyChars : Json → List Char
  | .null => "null".data
  | .bool true => "true".data
  | .bool false => "false".data
  | .num i => intToChars i
  | .str s => strLitChars s
  | .arr xs => '[' :: (stringifyElems xs ++ [']'])
  | .obj fs => '\x7b' :: (stringifyFields fs ++ ['\x7d'])
  | .buf bs =>
    ('\x7b' :: (strLitChars "type").append
      (':' :: (strLitChars "Buffer").append
        (',' :: (strLitChars "data").append
          (':' :: '[' :: (numList bs ++ [']', '\x7d'])))))

/-- Serialization of array elements, comma separated. -/
def stringifyElems : List Json → List Char
  | [] => []
  | [x] => stringifyChars x
  | x :: y :: rest => stringifyChars x ++ ',' :: stringifyElems (y :: rest)

/-- Serialization of object members, comma separated. -/
def stringifyFields : List (String × Json) → List Char
  | [] => []
  | [(k, v)] => strLitChars k ++ ':' :: stringifyChars v
  | (k, v) :: f :: rest =>
    strLitChars k ++ ':' :: stringifyChars v ++ ',' :: stringifyFields (f :: rest)

end

/-- The string `JSON.stringify` returns. -/
def Json.stringify (j : Json) : String := ⟨stringifyChars j⟩

/-- JSON whitespace (the four characters `JSON.parse` skips). -/
def wsChar (c : Char) : Bool :=
  c = ' ' || c = '\t' || c = '\n' || c = '\r'

/-- Drop leading JSON whitespace. -/
def skipWs : List Char → List Char
  | [] => []
  | c :: cs => if wsChar c then skipWs cs else c :: cs

/-- ASCII decimal digit test, as `JSON.parse` classifies number starts. -/
def isDigitC (c : Char) : Bool :=
  48 ≤ c.toNat && c.toNat ≤ 57

/-- Maximal run of decimal digits. -/
def takeDigits : List Char → (List Char × List Char)
  | [] => ([], [])
  | c :: cs =>
    if isDigitC c then
      let p := takeDigits cs
      (c :: p.1, p.2)
    else ([], c :: cs)

/-- Value of a digit string, most significant first. -/
def digitsVal (ds : List Char) : Nat :=
  ds.foldl (fun a c => a * 10 + (c.toNat - 48)) 0

/-- Integer part of a JSON number: a single `0`, or a nonzero digit followed
by more digits.  (A digit directly after a leading `0` is left in the
remainder, where the caller's delimiter check rejects it, matching the
strict JSON grammar.) -/
def pIntDigits : List Char → Option (Nat × List Char)
  | [] => none
  | c :: cs =>
    if c = '0' then some (0, cs)
    else if isDigitC c then
      let p := takeDigits cs
      some (digitsVal (c :: p.1), p.2)
    else none

/-- Consume an optional exponent part; the numeric value keeps integer
precision (see `Json`). -/
def pExpPart (v : Int) (cs : List Char) : Option (Json × List Char) :=
  if cs.head? = some 'e' ∨ cs.head? = some 'E' then
    let cs2 :=
      if cs.tail.head? = some '+' ∨ cs.tail.head? = some '-' then cs.tail.tail else cs.tail
    match pIntDigits cs2 with
    | some (_, r3) => some (.num v, r3)
    | none => none
  else some (.num v, cs)

/-- Consume an optional fraction then exponent after the integer part. -/
def pAfterInt (v : Int) (rest : List Char) : Option (Json × List Char) :=
  if rest.head? = some '.' then
    match takeDigits rest.tail with
    | ([], _) => none
    | (_, r3) => pExpPart v r3
  else pExpPart v rest

/-- Parse a JSON number (sign, integer part, optional fraction and
exponent). -/
def pNumber : List Char → Option (Json × List Char)
  | [] => none
  | c :: cs1 =>
    if c = '-' then
      match pIntDigits cs1 with
      | none => none
      | some (n, rest) => pAfterInt (-(n : Int)) rest
    else
      match pIntDigits (c :: cs1) with
      | none => none
      | some (n, rest) => pAfterInt (n : Int) rest

/-- Hexadecimal digit value, upper or lower case. -/
def hexVal (c : Char) : Option Nat :=
  if 48 ≤ c.toNat ∧ c.toNat ≤ 57 then some (c.toNat - 48)
  else if 97 ≤ c.toNat ∧ c.toNat ≤ 102 then some (c.toNat - 87)
  else if 65 ≤ c.toNat ∧ c.toNat ≤ 70 then some (c.toNat - 55)
  else none

mutual

/-- Parse the body of a JSON string literal after the opening quote,
returning the decoded characters and the remainder after the closing
quote.  Unescaped control characters and unknown escapes are a syntax
error, as in strict JSON. -/
def pStringBody : List Char → Option (List Char × List Char)
  | [] => none
  | c :: cs =>
    if c = '"' then some ([], cs)
    else if c = '\\' then pEscape cs
    else if c.toNat < 32 then none
    else (pStringBody cs).map (fun p => (c :: p.1, p.2))

/-- Decode one escape sequence after a backslash, then continue with the
string body. -/
def pEscape : List Char → Option (List Char × List Char)
  | [] => none
  | e :: cs2 =>
    if e = '"' ∨ e = '\\' ∨ e = '/' then (pStringBody cs2).map (fun p => (e :: p.1, p.2))
    else if e = 'b' then (pStringBody cs2).map (fun p => ('\x08' :: p.1, p.2))
    else if e = 't' then (pStringBody cs2).map (fun p => ('\t' :: p.1, p.2))
    else if e = 'n' then (pStringBody cs2).map (fun p => ('\n' :: p.1, p.2))
    else if e = 'f' then (pStringBody cs2).map (fun p => ('\x0c' :: p.1, p.2))
    else if e = 'r' then (pStringBody cs2).map (fun p => ('\r' :: p.1, p.2))
    else if e = 'u' then
      match cs2 with
      | h1 :: h2 :: h3 :: h4 :: cs3 =>
        (match hexVal h1, hexVal h2, hexVal h3, hexVal h4 with
         | some a, some b, some c2, some d =>
           (pStringBody cs3).map
             (fun p => (Char.ofNat (((a * 16 + b) * 16 + c2) * 16 + d) :: p.1, p.2))
         | _, _, _, _ => none)
      | _ => none
    else none

end

mutual

/-- Fueled JSON value parser: the model of `JSON.parse` (without reviver).
The fuel only bounds nesting; `jsonParse` supplies enough for any input. -/
def pValue : Nat → List Char → Option (Json × List Char)
  | 0, _ => none
  | fuel + 1, cs =>
    match skipWs cs with
    | [] => none
    | c :: cs1 =>
      if c = 'n' then
        match cs1 with
        | 'u' :: 'l' :: 'l' :: r => some (.null, r)
        | _ => none
      else if c = 't' then
        match cs1 with
        | 'r' :: 'u' :: 'e' :: r => some (.bool true, r)
        | _ => none
      else if c = 'f' then
        match cs1 with
        | 'a' :: 'l' :: 's' :: 'e' :: r => some (.bool false, r)
        | _ => none
      else if c = '"' then
        (pStringBody cs1).map (fun p => (.str ⟨p.1⟩, p.2))
      else if c = '[' then
        let cs2 := skipWs cs1
        if cs2.head? = some ']' then some (.arr [], cs2.tail)
        else (pElems fuel cs2).map (fun p => (.arr p.1, p.2))
      else if c = '\x7b' then
        let cs2 := skipWs cs1
        if cs2.head? = some '\x7d' then some (.obj [], cs2.tail)
        else (pMembers fuel cs2).map (fun p => (.obj p.1, p.2))
      else if c = '-' ∨ isDigitC c then pNumber (c :: cs1)
      else none

/-- Parse one or more array elements followed by `]`. -/
def pElems : Nat → List Char → Option (List Json × List Char)
  | 0, _ => none
  | fuel + 1, cs =>
    match pValue fuel cs with
    | none => none
    | some (v, r1) =>
      let r := skipWs r1
      if r.head? = some ',' then (pElems fuel r.tail).map (fun p => (v :: p.1, p.2))
      else if r.head? = some ']' then some ([v], r.tail)
      else none

/-- Parse one or more object members followed by `\x7d`. -/
def pMembers : Nat → List Char → Option (List (String × Json) × List Char)
  | 0, _ => none
  | fuel + 1, cs =>
    if (skipWs cs).head? = some '"' then
      match pStringBody (skipWs cs).tail with
      | none => none
      | some (k, r1) =>
        if (skipWs r1).head? = some ':' then
          match pValue fuel (skipWs r1).tail with
          | none => none
          | some (v, r3) =>
            if (skipWs r3).head? = some ',' then
              (pMembers fuel (skipWs r3).tail).map (fun p => ((⟨k⟩, v) :: p.1, p.2))
            else if (skipWs r3).head? = some '\x7d' then some ([(⟨k⟩, v)], (skipWs r3).tail)
            else none
        else none
    else none

end

/-- Model: `JSON.parse` on a whole string: one value, optionally surrounded by
whitespace; anything else is a syntax error (`none`). -/
def jsonParse (s : String) : Option Json :=
  match pValue (s.data.length + 1) s.data with
  | some (j, rest) => if skipWs rest = [] then some j else none
  | none => none

/-- Property access on a parsed object: with duplicate keys, the last
occurrence wins, as in a JavaScript object built by `JSON.parse`. -/
def lookupLast {α : Type} (k : String) : List (String × α) → Option α
  | [] => none
  | (k2, v) :: rest =>
    match lookupLast k rest with
    | some w => some w
    | none => if k2 = k then some v else none

/-- Coercion of an array element to a byte by `new Buffer(array)`: numbers
are taken mod 256, `true` is 1, and non-numeric values coerce to 0 (the
string-to-number corner of that coercion is flattened to 0 here; no stored
value the server writes contains one). -/
def jsToByte : Json → Nat
  | .num i => (i % 256).toNat
  | .bool true => 1
  | _ => 0

/-- Bytes of `new Buffer(string)` (UTF-8). -/
def utf8Bytes (s : String) : List Nat :=
  s.toUTF8.toList.map (fun b => b.toNat)

mutual

/-- The reviver `makeAPIRequest` passes to `JSON.parse`: bottom-up, every
object whose `type` property is the string `"Buffer"` is replaced by
`new Buffer(value.data)`.  `none` models the reviver throwing (the
`new Buffer` constructor rejects `undefined`, `null`, booleans, objects and
negative sizes), which `JSON.parse` propagates. -/
def revive : Json → Option Json
  | .arr xs => (reviveList xs).map .arr
  | .obj fs =>
    (match reviveFields fs with
     | none => none
     | some fs2 =>
       match lookupLast "type" fs2 with
       | some (.str t) =>
         if t = "Buffer" then
           match lookupLast "data" fs2 with
           | some (.arr ds) => some (.buf (ds.map jsToByte))
           | some (.num i) => if i < 0 then none else some (.buf (List.replicate i.toNat 0))
           | some (.str s) => some (.buf (utf8Bytes s))
           | _ => none
         else some (.obj fs2)
       | _ => some (.obj fs2))
  | v => some v

/-- Revive each element of an array. -/
def reviveList : List Json → Option (List Json)
  | [] => some []
  | x :: xs =>
    match revive x with
    | none => none
    | some y => (reviveList xs).map (fun ys => y :: ys)

/-- Revive each member value of an object. -/
def reviveFields : List (String × Json) → Option (List (String × Json))
  | [] => some []
  | (k, v) :: fs =>
    match revive v with
    | none => none
    | some w => (reviveFields fs).map (fun ws => (k, w) :: ws)

end

/-- The whole interpretation `makeAPIRequest` applies to a non-sentinel
stored string: `JSON.parse(data, bufferReviver)`; `none` is the catch
branch (syntax error or reviver exception). -/
def decodeStored (s : String) : Option Json :=
  match jsonParse s with
  | none => none
  | some j => revive j

/-! ## The server model (src/server.js) -/

/-- The inbound request data `makeAPIRequest` consumes: method, URL, and
the header map.  Node lowercases incoming header names and merges
duplicates, so a header map is a key-value list looked up by exact key. -/
structure ReqInfo where
  method : String
  url : String
  headers : List (String × String)

/-- What the origin returned on a completed fetch (any status code,
including 4xx/5xx): status, response headers, and the raw byte body
(`encoding: null` makes the `request` library deliver a Buffer). -/
structure FetchResult where
  statusCode : Nat
  headers : List (String × String)
  body : List Nat

/-- Environment behavior of the single outbound fetch: either the origin
responds (`success`, any status code) or a transport-level failure occurs
(connection error or timeout), rejecting the promise. -/
inductive FetchOutcome
  | success (rr : FetchResult)
  | failure

/-- The three categorized failure reasons thrown in the API pipeline
(`new Error('unavailable' | 'gone' | 'forbidden')`). -/
inductive APIError
  | unavailable
  | gone
  | forbidden
deriving DecidableEq

/-- Status code `onAPIRequest` translates a failure reason to. -/
def errCode : APIError → Nat
  | .unavailable => 503
  | .gone => 410
  | .forbidden => 403

/-- The options object `makeAPIRequest` passes to the `request` library. -/
structure FetchCall where
  method : String
  url : String
  body : Option (List Nat)
  headers : List (String × String)
  timeout : Nat
deriving DecidableEq

/-- Everything observable about one `makeAPIRequest` run: the value
returned or the error thrown, the `db.get` keys read in order, the
`db.put` pairs written in order, and the single outbound request options,
if a fetch happened. -/
structure APIOutcome where
  result : Except APIError Json
  reads : List String
  writes : List (String × String)
  fetchCall : Option FetchCall

/-- Header keys deleted by `removeProxyHeaders` (exact, lowercase). -/
def proxyHeaderKeys : List String :=
  ["connection", "proxy-connection", "proxy-authenticate", "proxy-authorization",
   "host", "content-length", "cache-token", "request-uri"]

/-- Model: `removeProxyHeaders`: copy the map, delete the listed keys.  The
deletion is by exact key match (`delete headers['connection']` etc.). -/
def removeProxyHeaders (hs : List (String × String)) : List (String × String) :=
  hs.filter (fun kv => !(proxyHeaderKeys.contains kv.1))

/-- The `'__REQUEST__'` sentinel: a fetch for the key is in flight. -/
def sentinelRequest : String := "__REQUEST__"

/-- The `'__BLOCK__'` sentinel: the key is poisoned. -/
def sentinelBlock : String := "__BLOCK__"

/-- The fixed store key of the global availability flag. -/
def lockKey : String := "lock"

/-- The object `makeAPIRequest` caches and returns on a completed fetch:
origin status, sanitized response headers, raw body. -/
def payloadJson (st : Int) (hs : List (String × String)) (bd : List Nat) : Json :=
  .obj [("statusCode", .num st),
        ("headers", .obj (hs.map (fun kv => (kv.1, .str kv.2)))),
        ("content", .buf bd)]

/-- Model: `cacheObj` built from a fetch result in the ABSENT branch. -/
def cacheJson (rr : FetchResult) : Json :=
  payloadJson rr.statusCode (removeProxyHeaders rr.headers) rr.body

/-- The cache coordinator `makeAPIRequest(req, body, id)`.  The shared
store is a snapshot function (its own persistence is external); the fetch
outcome is the environment's response used if and only if the ABSENT
branch runs. -/
def makeAPIRequest (store : String → Option String) (req : ReqInfo) (body : List Nat)
    (id : String) (fetch : FetchOutcome) : APIOutcome :=
  if store lockKey = some "true" then
    ⟨.error .unavailable, [lockKey], [], none⟩
  else
    match store id with
    | some d =>
      if d = sentinelRequest then ⟨.error .unavailable, [lockKey, id], [], none⟩
      else if d = sentinelBlock then ⟨.error .gone, [lockKey, id], [], none⟩
      else
        (match decodeStored d with
         | some j => ⟨.ok j, [lockKey, id], [], none⟩
         | none => ⟨.error .gone, [lockKey, id], [], none⟩)
    | none =>
      let call : FetchCall :=
        ⟨req.method, req.url, (if body.length > 0 then some body else none),
         removeProxyHeaders req.headers, 180000⟩
      match fetch with
      | .success rr =>
        ⟨.ok (cacheJson rr), [lockKey, id],
         [(id, sentinelRequest), (id, Json.stringify (cacheJson rr))], some call⟩
      | .failure =>
        ⟨.error .gone, [lockKey, id], [(id, sentinelRequest), (id, sentinelBlock)], some call⟩

/-- First binding for a key, the lookup of a field in a parsed form body
or of a header in Node's (already merged) header map. -/
def lookupFirst (k : String) : List (String × String) → Option String
  | [] => none
  | (k2, v) :: rest => if k2 = k then some v else lookupFirst k rest

/-- Model: `getRequestId`: the account token from the form-encoded body
(`api_token`, parsed by the external `querystring` library into key-value
pairs) and the session token from the `cache-token` header; both must be
non-null (an empty string passes), and the id joins them with `-`. -/
def getRequestId (bodyFields : List (String × String)) (headers : List (String × String)) :
    Except APIError String :=
  match lookupFirst "api_token" bodyFields, lookupFirst "cache-token" headers with
  | some user, some token => .ok (user ++ "-" ++ token)
  | _, _ => .error .forbidden

/-- Observable outcome of the whole `onAPIRequest` end handler: the HTTP
status written, plus the store and fetch effects. -/
structure HandleOutcome where
  status : Nat
  reads : List String
  writes : List (String × String)
  fetchCall : Option FetchCall
deriving DecidableEq

/-- The status code `res.writeHead(data.statusCode, ...)` accepts from a
returned value: a `statusCode` property holding an integer in Node's valid
range; anything else makes `writeHead` throw, which the catch-all turns
into a 500. -/
def jsonStatus : Json → Option Nat
  | .obj fs =>
    (match lookupLast "statusCode" fs with
     | some (.num i) => if 100 ≤ i ∧ i ≤ 999 then some i.toNat else none
     | _ => none)
  | _ => none

/-- The `onAPIRequest` end handler: resolve the id, run the coordinator,
write either the returned data or the translated error page. -/
def handleAPI (store : String → Option String) (req : ReqInfo)
    (bodyFields : List (String × String)) (body : List Nat)
    (fetch : FetchOutcome) : HandleOutcome :=
  match getRequestId bodyFields req.headers with
  | .error e => ⟨errCode e, [], [], none⟩
  | .ok id =>
    let o := makeAPIRequest store req body id fetch
    match o.result with
    | .error e => ⟨errCode e, o.reads, o.writes, o.fetchCall⟩
    | .ok j =>
      match jsonStatus j with
      | some n => ⟨n, o.reads, o.writes, o.fetchCall⟩
      | none => ⟨500, o.reads, o.writes, o.fetchCall⟩

/-- A decoded value of the shape the coordinator itself persists: integer
`statusCode`, object `headers`, Buffer `content`. -/
def isPayloadShape : Json → Bool
  | .obj fs =>
    (match lookupLast "statusCode" fs with
     | some (.num _) => true
     | _ => false) &&
    (match lookupLast "headers" fs with
     | some (.obj _) => true
     | _ => false) &&
    (match lookupLast "content" fs with
     | some (.buf _) => true
     | _ => false)
  | _ => false

/-! ## Round-trip infrastructure

`JSON.parse` never yields a `buf` directly: a serialized Buffer comes back
as its wire object and is only turned back into a Buffer by the reviver.
`bufWire`/`payloadWire` name those intermediate shapes, and the fuel
bookkeeping below shows `jsonParse`'s fuel always suffices. -/

mutual

/-- No `buf` constructor anywhere: the shapes `jsonParse` can return. -/
def bufFree : Json → Prop
  | .arr xs => bufFreeList xs
  | .obj fs => bufFreeFields fs
  | .buf _ => False
  | _ => True

/-- Predicate: `bufFree` for every element. -/
def bufFreeList : List Json → Prop
  | [] => True
  | x :: xs => bufFree x ∧ bufFreeList xs

/-- Predicate: `bufFree` for every member value. -/
def bufFreeFields : List (String × Json) → Prop
  | [] => True
  | f :: fs => bufFree f.2 ∧ bufFreeFields fs

end

mutual

/-- Fuel sufficient for `pValue` to parse this value's serialization. -/
def needFuel : Json → Nat
  | .arr xs => 1 + needElems xs
  | .obj fs => 1 + needMembers fs
  | _ => 1

/-- Fuel sufficient for `pElems`. -/
def needElems : List Json → Nat
  | [] => 0
  | x :: xs => 1 + needFuel x + needElems xs

/-- Fuel sufficient for `pMembers`. -/
def needMembers : List (String × Json) → Nat
  | [] => 0
  | f :: fs => 1 + needFuel f.2 + needMembers fs

end

/-- The wire form of a serialized Buffer, as `jsonParse` returns it before
the reviver runs. -/
def bufWire (bd : List Nat) : Json :=
  .obj [("type", .str "Buffer"), ("data", .arr (bd.map (fun b : Nat => Json.num (b : Int))))]

/-- The wire form of a serialized payload. -/
def payloadWire (st : Int) (hs : List (String × String)) (bd : List Nat) : Json :=
  .obj [("statusCode", .num st),
        ("headers", .obj (hs.map (fun kv => (kv.1, .str kv.2)))),
        ("content", bufWire bd)]

/-- Remainders a serialized value may be followed by inside a larger
serialization: nothing, or a delimiter. -/
def delimOk : List Char → Prop
  | [] => True
  | c :: _ => c = ',' ∨ c = ']' ∨ c = '\x7d'

/-- The remainder does not begin with a decimal digit. -/
def notDigitStart : List Char → Prop
  | [] => True
  | c :: _ => isDigitC c = false

/-! ## Sample values used by witnesses and counterexamples -/

/-- Store with no entries. -/
def storeEmpty : String → Option String := fun _ => none

/-- Store holding exactly one binding. -/
def storeWith (k v : String) : String → Option String :=
  fun q => if q = k then some v else none

/-- A sample API request. -/
def reqSample : ReqInfo :=
  ⟨"POST", "/kcsapi/api_port/port", [("cache-token", "t1"), ("host", "h")]⟩

/-! ## Theorems -/

/-- The two sentinel strings are distinct. -/
theorem sentinelBlock_ne_request : sentinelBlock ≠ sentinelRequest := by decide

/-- C2: the coordinator fails with Unavailable (translated to HTTP 503)
exactly when the availability flag holds `'true'` or the key's entry is the
`'__REQUEST__'` sentinel; in either case no origin fetch happens, and when
the flag is set the only store read is the flag itself. -/
theorem claim2 (store : String → Option String) (req : ReqInfo) (body : List Nat)
    (id : String) (fetch : FetchOutcome) :
    ((makeAPIRequest store req body id fetch).result = .error .unavailable ↔
      (store lockKey = some "true" ∨ store id = some sentinelRequest)) ∧
    ((makeAPIRequest store req body id fetch).result = .error .unavailable →
      (makeAPIRequest store req body id fetch).fetchCall = none) ∧
    (store lockKey = some "true" →
      (makeAPIRequest store req body id fetch).reads = [lockKey]) ∧
    errCode .unavailable = 503 := by
  by_cases hl : store lockKey = some "true"
  · simp [makeAPIRequest, hl, errCode]
  · cases hid : store id with
    | none =>
      cases fetch <;> simp [makeAPIRequest, hl, hid, errCode]
    | some d =>
      by_cases h1 : d = sentinelRequest
      · simp [makeAPIRequest, hl, hid, h1, errCode]
      · by_cases h2 : d = sentinelBlock
        · simp [makeAPIRequest, hl, hid, h1, h2, errCode, sentinelBlock_ne_request]
        · cases hdec : decodeStored d <;>
            simp [makeAPIRequest, hl, hid, h1, h2, hdec, errCode]

/-- C10: the availability flag is set only by the exact string `'true'`;
any other value (or absence) leaves the coordinator's behavior determined
solely by the key's entry. -/
theorem claim10 (req : ReqInfo) (body : List Nat) (id : String) (fetch : FetchOutcome) :
    (∀ store : String → Option String, store lockKey = some "true" →
      makeAPIRequest store req body id fetch =
        ⟨.error .unavailable, [lockKey], [], none⟩) ∧
    (∀ store store2 : String → Option String,
      store lockKey ≠ some "true" → store2 lockKey ≠ some "true" →
      store id = store2 id →
      makeAPIRequest store req body id fetch = makeAPIRequest store2 req body id fetch) := by
  constructor
  · intro store hl
    simp [makeAPIRequest, hl]
  · intro store store2 h1 h2 hid
    unfold makeAPIRequest
    rw [if_neg h1, if_neg h2, hid]

/-- Witness for C10 at concrete stores. -/
theorem claim10_witness :
    (makeAPIRequest (storeWith lockKey "true") reqSample [] "k" .failure =
      ⟨.error .unavailable, [lockKey], [], none⟩) ∧
    ((storeWith "k" "x") lockKey ≠ some "true" ∧ storeEmpty lockKey ≠ some "true" ∧
      (storeWith "k" "x") "q" = storeEmpty "q") ∧
    makeAPIRequest (storeWith "k" "x") reqSample [] "q" .failure =
      makeAPIRequest storeEmpty reqSample [] "q" .failure := by
  refine ⟨(claim10 reqSample [] "k" .failure).1 _ rfl, ⟨?_, ?_, rfl⟩,
    (claim10 reqSample [] "q" .failure).2 _ _ ?_ ?_ rfl⟩ <;> decide

/-- The sentinels are not JSON, so interpreting one as a payload fails. -/
theorem decodeStored_sentinelRequest : decodeStored sentinelRequest = none := rfl

/-- The `'__BLOCK__'` sentinel is not JSON either. -/
theorem decodeStored_sentinelBlock : decodeStored sentinelBlock = none := rfl

/-- Membership in the sanitized header map: survivors are exactly the
original pairs whose key is not listed. -/
theorem mem_removeProxyHeaders (hs : List (String × String)) (kv : String × String) :
    kv ∈ removeProxyHeaders hs ↔ (kv ∈ hs ∧ kv.1 ∉ proxyHeaderKeys) := by
  simp [removeProxyHeaders, List.mem_filter, List.elem_iff]

/-- C1: with the flag clear and the key absent, the coordinator writes the
PENDING sentinel first, performs exactly one origin fetch with a 180000 ms
timeout (sanitized request headers, body omitted when empty); an origin
response with any status code is persisted as READY and returned as-is
(origin status, sanitized response headers, raw body), while a transport
failure persists BLOCKED and fails with Gone. -/
theorem claim1 (store : String → Option String) (req : ReqInfo) (body : List Nat)
    (id : String) (fetch : FetchOutcome)
    (hlock : store lockKey ≠ some "true") (habsent : store id = none) :
    (makeAPIRequest store req body id fetch).fetchCall =
      some ⟨req.method, req.url, (if body.length > 0 then some body else none),
            removeProxyHeaders req.headers, 180000⟩ ∧
    (makeAPIRequest store req body id fetch).writes.head? = some (id, sentinelRequest) ∧
    (∀ rr, fetch = .success rr →
      (makeAPIRequest store req body id fetch).result =
        .ok (payloadJson rr.statusCode (removeProxyHeaders rr.headers) rr.body) ∧
      (makeAPIRequest store req body id fetch).writes =
        [(id, sentinelRequest), (id, Json.stringify (cacheJson rr))]) ∧
    (fetch = .failure →
      (makeAPIRequest store req body id fetch).result = .error .gone ∧
      (makeAPIRequest store req body id fetch).writes =
        [(id, sentinelRequest), (id, sentinelBlock)]) := by
  cases fetch <;> simp [makeAPIRequest, hlock, habsent, cacheJson]

/-- Witness for C1: a fresh key, origin answers 404. -/
theorem claim1_witness :
    (storeEmpty lockKey ≠ some "true") ∧ (storeEmpty "k" = none) ∧
    ((makeAPIRequest storeEmpty reqSample [] "k"
        (.success ⟨404, [("a", "b")], [1, 2]⟩)).fetchCall =
      some ⟨reqSample.method, reqSample.url, (if ([] : List Nat).length > 0 then some [] else none),
            removeProxyHeaders reqSample.headers, 180000⟩ ∧
     (makeAPIRequest storeEmpty reqSample [] "k"
        (.success ⟨404, [("a", "b")], [1, 2]⟩)).writes.head? = some ("k", sentinelRequest) ∧
     (∀ rr, (.success ⟨404, [("a", "b")], [1, 2]⟩ : FetchOutcome) = .success rr →
       (makeAPIRequest storeEmpty reqSample [] "k"
          (.success ⟨404, [("a", "b")], [1, 2]⟩)).result =
         .ok (payloadJson rr.statusCode (removeProxyHeaders rr.headers) rr.body) ∧
       (makeAPIRequest storeEmpty reqSample [] "k"
          (.success ⟨404, [("a", "b")], [1, 2]⟩)).writes =
         [("k", sentinelRequest), ("k", Json.stringify (cacheJson rr))]) ∧
     ((.success ⟨404, [("a", "b")], [1, 2]⟩ : FetchOutcome) = .failure →
       (makeAPIRequest storeEmpty reqSample [] "k"
          (.success ⟨404, [("a", "b")], [1, 2]⟩)).result = .error .gone ∧
       (makeAPIRequest storeEmpty reqSample [] "k"
          (.success ⟨404, [("a", "b")], [1, 2]⟩)).writes =
         [("k", sentinelRequest), ("k", sentinelBlock)])) :=
  ⟨by decide, rfl,
   claim1 storeEmpty reqSample [] "k" (.success ⟨404, [("a", "b")], [1, 2]⟩) (by decide) rfl⟩

/-- Witness for C2 at a key currently PENDING. -/
theorem claim2_witness :
    ((makeAPIRequest (storeWith "k" sentinelRequest) reqSample [] "k" .failure).result =
      .error .unavailable ↔
      ((storeWith "k" sentinelRequest) lockKey = some "true" ∨
        (storeWith "k" sentinelRequest) "k" = some sentinelRequest)) ∧
    ((makeAPIRequest (storeWith "k" sentinelRequest) reqSample [] "k" .failure).result =
      .error .unavailable →
      (makeAPIRequest (storeWith "k" sentinelRequest) reqSample [] "k" .failure).fetchCall =
        none) ∧
    ((storeWith "k" sentinelRequest) lockKey = some "true" →
      (makeAPIRequest (storeWith "k" sentinelRequest) reqSample [] "k" .failure).reads =
        [lockKey]) ∧
    errCode .unavailable = 503 :=
  claim2 (storeWith "k" sentinelRequest) reqSample [] "k" .failure

/-- C3 counterexample: the stored string `\x7b\x7d` is neither sentinel nor
a valid payload encoding, yet the coordinator does not fail with Gone: it
returns the parsed empty object (the HTTP layer then 500s on it). -/
theorem claim3_counterexample :
    decodeStored "\x7b\x7d" = some (.obj []) ∧
    isPayloadShape (.obj []) = false ∧
    ("\x7b\x7d" : String) ≠ sentinelRequest ∧
    ("\x7b\x7d" : String) ≠ sentinelBlock ∧
    (makeAPIRequest (storeWith "k" "\x7b\x7d") reqSample [] "k" .failure).result =
      .ok (.obj []) ∧
    ¬ (makeAPIRequest (storeWith "k" "\x7b\x7d") reqSample [] "k" .failure).result =
      .error .gone ∧
    (makeAPIRequest (storeWith "k" "\x7b\x7d") reqSample [] "k" .failure).fetchCall = none ∧
    handleAPI (storeWith "u1-t1" "\x7b\x7d") reqSample [("api_token", "u1")] [] .failure =
      ⟨500, [lockKey, "u1-t1"], [], none⟩ := by
  have hres : (makeAPIRequest (storeWith "k" "\x7b\x7d") reqSample [] "k" .failure).result =
      .ok (.obj []) := rfl
  refine ⟨rfl, rfl, by decide, by decide, hres, ?_, rfl, rfl⟩
  rw [hres]
  exact fun hc => Except.noConfusion hc

/-- C3 amended: a stored BLOCKED sentinel, or any stored string on which
`JSON.parse` (with the Buffer reviver) throws, yields Gone with no fetch;
but a stored string that parses as JSON is returned as the result even when
it is not a valid payload encoding. -/
theorem claim3_amended (store : String → Option String) (req : ReqInfo) (body : List Nat)
    (id : String) (fetch : FetchOutcome) (s : String)
    (hlock : store lockKey ≠ some "true") (hid : store id = some s) :
    (s = sentinelBlock →
      (makeAPIRequest store req body id fetch).result = .error .gone ∧
      (makeAPIRequest store req body id fetch).fetchCall = none) ∧
    (s ≠ sentinelRequest → s ≠ sentinelBlock → decodeStored s = none →
      (makeAPIRequest store req body id fetch).result = .error .gone ∧
      (makeAPIRequest store req body id fetch).fetchCall = none) ∧
    (∀ j, s ≠ sentinelRequest → s ≠ sentinelBlock → decodeStored s = some j →
      (makeAPIRequest store req body id fetch).result = .ok j ∧
      (makeAPIRequest store req body id fetch).fetchCall = none) := by
  refine ⟨?_, ?_, ?_⟩
  · intro h
    subst h
    simp [makeAPIRequest, hlock, hid, sentinelBlock_ne_request]
  · intro h1 h2 hdec
    simp [makeAPIRequest, hlock, hid, h1, h2, hdec]
  · intro j h1 h2 hdec
    simp [makeAPIRequest, hlock, hid, h1, h2, hdec]

/-- Witness for C3 amended: a blocked key and a corrupt payload. -/
theorem claim3_witness :
    (((storeWith "k" sentinelBlock) lockKey ≠ some "true") ∧
      (storeWith "k" sentinelBlock) "k" = some sentinelBlock ∧
      (makeAPIRequest (storeWith "k" sentinelBlock) reqSample [] "k" .failure).result =
        .error .gone) ∧
    (((storeWith "k" "garbage") lockKey ≠ some "true") ∧
      ("garbage" : String) ≠ sentinelRequest ∧ ("garbage" : String) ≠ sentinelBlock ∧
      decodeStored "garbage" = none ∧
      (makeAPIRequest (storeWith "k" "garbage") reqSample [] "k" .failure).result =
        .error .gone) :=
  ⟨⟨by decide, rfl,
    ((claim3_amended (storeWith "k" sentinelBlock) reqSample [] "k" .failure sentinelBlock
      (by decide) rfl).1 rfl).1⟩,
   ⟨by decide, by decide, by decide, rfl,
    ((claim3_amended (storeWith "k" "garbage") reqSample [] "k" .failure "garbage"
      (by decide) rfl).2.1 (by decide) (by decide) rfl).1⟩⟩

/-- C4: a READY entry whose payload decodes successfully is returned
exactly (stored status, headers, body), with no fetch and no writes. -/
theorem claim4 (store : String → Option String) (req : ReqInfo) (body : List Nat)
    (id : String) (fetch : FetchOutcome) (s : String) (st : Int)
    (hs : List (String × String)) (bd : List Nat)
    (hlock : store lockKey ≠ some "true") (hid : store id = some s)
    (hdec : decodeStored s = some (payloadJson st hs bd)) :
    makeAPIRequest store req body id fetch =
      ⟨.ok (payloadJson st hs bd), [lockKey, id], [], none⟩ := by
  have h1 : s ≠ sentinelRequest := by
    intro h
    rw [h, decodeStored_sentinelRequest] at hdec
    exact Option.noConfusion hdec
  have h2 : s ≠ sentinelBlock := by
    intro h
    rw [h, decodeStored_sentinelBlock] at hdec
    exact Option.noConfusion hdec
  simp [makeAPIRequest, hlock, hid, h1, h2, hdec]

/-- C5 counterexample: an empty (but present) account token is accepted,
the key becomes `-t1`, and the store is read — refuting "missing or empty
fails with Forbidden and no store access". -/
theorem claim5_counterexample :
    lookupFirst "api_token" [("api_token", "")] = some "" ∧
    getRequestId [("api_token", "")] reqSample.headers = .ok "-t1" ∧
    handleAPI (storeWith lockKey "true") reqSample [("api_token", "")] [] .failure =
      ⟨503, [lockKey], [], none⟩ ∧
    (503 : Nat) ≠ 403 ∧ ([lockKey] : List String) ≠ [] := by
  refine ⟨rfl, rfl, rfl, by decide, by decide⟩

/-- C5 amended: a missing (absent) account or session token fails with
Forbidden, the response is 403 and no store access or fetch occurs; when
both tokens are present — even empty — the id is the two joined by `-`. -/
theorem claim5_amended (store : String → Option String) (req : ReqInfo)
    (bodyFields : List (String × String)) (body : List Nat) (fetch : FetchOutcome) :
    ((lookupFirst "api_token" bodyFields = none ∨
        lookupFirst "cache-token" req.headers = none) →
      getRequestId bodyFields req.headers = .error .forbidden ∧
      handleAPI store req bodyFields body fetch = ⟨403, [], [], none⟩) ∧
    (∀ u t, lookupFirst "api_token" bodyFields = some u →
      lookupFirst "cache-token" req.headers = some t →
      getRequestId bodyFields req.headers = .ok (u ++ "-" ++ t)) := by
  constructor
  · intro h
    have hforb : getRequestId bodyFields req.headers = .error .forbidden := by
      cases hu : lookupFirst "api_token" bodyFields <;>
        cases ht : lookupFirst "cache-token" req.headers <;>
        simp [getRequestId, hu, ht] <;>
        rcases h with h | h <;> simp [hu, ht] at h
    exact ⟨hforb, by simp [handleAPI, hforb, errCode]⟩
  · intro u t hu ht
    simp [getRequestId, hu, ht]

/-- Witness for C5 amended: no `api_token` field at all. -/
theorem claim5_witness :
    (lookupFirst "api_token" [] = none ∨
      lookupFirst "cache-token" reqSample.headers = none) ∧
    (getRequestId [] reqSample.headers = .error .forbidden ∧
      handleAPI storeEmpty reqSample [] [] .failure = ⟨403, [], [], none⟩) ∧
    getRequestId [("api_token", "u1")] reqSample.headers = .ok ("u1" ++ "-" ++ "t1") :=
  ⟨Or.inl rfl,
   (claim5_amended storeEmpty reqSample [] [] .failure).1 (Or.inl rfl),
   (claim5_amended storeEmpty reqSample [("api_token", "u1")] [] .failure).2 "u1" "t1" rfl rfl⟩

/-- C6 counterexample: the BLOCKED branch returns Gone with no store write
at all, refuting "every branch except READY-decode-success performs at
least one store write". -/
theorem claim6_counterexample :
    (makeAPIRequest (storeWith "k" sentinelBlock) reqSample [] "k" .failure).result =
      .error .gone ∧
    (makeAPIRequest (storeWith "k" sentinelBlock) reqSample [] "k" .failure).writes =
      [] := ⟨rfl, rfl⟩

/-- C6 amended: only the ABSENT branch writes; it performs two store reads
(the flag, then the key), a PENDING write, and exactly one further write —
the serialized payload on success or BLOCKED on transport failure. -/
theorem claim6_amended (store : String → Option String) (req : ReqInfo) (body : List Nat)
    (id : String) (fetch : FetchOutcome) :
    ((makeAPIRequest store req body id fetch).writes ≠ [] ↔
      (store lockKey ≠ some "true" ∧ store id = none)) ∧
    (store lockKey ≠ some "true" → store id = none →
      (makeAPIRequest store req body id fetch).reads = [lockKey, id] ∧
      ∃ v, (makeAPIRequest store req body id fetch).writes =
          [(id, sentinelRequest), (id, v)] ∧
        (v = sentinelBlock ∨
          ∃ rr, fetch = .success rr ∧ v = Json.stringify (cacheJson rr))) := by
  by_cases hl : store lockKey = some "true"
  · simp [makeAPIRequest, hl]
  · cases hid : store id with
    | none =>
      cases fetch with
      | success rr =>
        refine ⟨by simp [makeAPIRequest, hl, hid], fun _ _ => ⟨by simp [makeAPIRequest, hl, hid], ?_⟩⟩
        exact ⟨Json.stringify (cacheJson rr), by simp [makeAPIRequest, hl, hid],
          Or.inr ⟨rr, rfl, rfl⟩⟩
      | failure =>
        refine ⟨by simp [makeAPIRequest, hl, hid], fun _ _ => ⟨by simp [makeAPIRequest, hl, hid], ?_⟩⟩
        exact ⟨sentinelBlock, by simp [makeAPIRequest, hl, hid], Or.inl rfl⟩
    | some d =>
      by_cases h1 : d = sentinelRequest
      · simp [makeAPIRequest, hl, hid, h1]
      · by_cases h2 : d = sentinelBlock
        · simp [makeAPIRequest, hl, hid, h1, h2, sentinelBlock_ne_request]
        · cases hdec : decodeStored d <;> simp [makeAPIRequest, hl, hid, h1, h2, hdec]

/-- Witness for C6 amended: fresh key, transport failure. -/
theorem claim6_witness :
    (storeEmpty lockKey ≠ some "true") ∧ (storeEmpty "k" = none) ∧
    ((makeAPIRequest storeEmpty reqSample [] "k" .failure).reads = [lockKey, "k"] ∧
      ∃ v, (makeAPIRequest storeEmpty reqSample [] "k" .failure).writes =
          [("k", sentinelRequest), ("k", v)] ∧
        (v = sentinelBlock ∨
          ∃ rr, (FetchOutcome.failure : FetchOutcome) = .success rr ∧
            v = Json.stringify (cacheJson rr))) :=
  ⟨by decide, rfl,
   (claim6_amended storeEmpty reqSample [] "k" .failure).2 (by decide) rfl⟩

/-- C8 counterexample: deletion is by exact lowercase key, so the listed
header `connection` spelled `Connection` survives sanitization — refuting
case-insensitive removal. -/
theorem claim8_counterexample :
    removeProxyHeaders [("Connection", "keep-alive")] = [("Connection", "keep-alive")] ∧
    "Connection".data.map Char.toLower = "connection".data ∧
    ("Connection" : String) ≠ "connection" ∧
    "connection" ∈ proxyHeaderKeys := by
  refine ⟨rfl, by decide, by decide, by decide⟩

/-- C8 amended: the sanitizer removes exactly the pairs whose key equals
(byte-for-byte) one of the eight listed lowercase names, keeps every other
pair unchanged, and the headers of any origin fetch the coordinator issues
are sanitized this way. -/
theorem claim8_amended (hs : List (String × String)) :
    (∀ kv ∈ removeProxyHeaders hs, kv.1 ∉ proxyHeaderKeys) ∧
    (∀ kv ∈ hs, kv.1 ∉ proxyHeaderKeys → kv ∈ removeProxyHeaders hs) ∧
    (∀ kv ∈ removeProxyHeaders hs, kv ∈ hs) ∧
    (∀ (store : String → Option String) req body id fetch call,
      (makeAPIRequest store req body id fetch).fetchCall = some call →
      ∀ kv ∈ call.headers, kv.1 ∉ proxyHeaderKeys) := by
  refine ⟨fun kv hkv => ((mem_removeProxyHeaders hs kv).1 hkv).2,
    fun kv hkv hnot => (mem_removeProxyHeaders hs kv).2 ⟨hkv, hnot⟩,
    fun kv hkv => ((mem_removeProxyHeaders hs kv).1 hkv).1,
    ?_⟩
  intro store req body id fetch call hcall kv hkv
  have hhd : call.headers = removeProxyHeaders req.headers := by
    by_cases hl : store lockKey = some "true"
    · simp [makeAPIRequest, hl] at hcall
    · cases hid : store id with
      | none =>
        cases fetch <;>
          (simp [makeAPIRequest, hl, hid] at hcall; rw [← hcall])
      | some d =>
        by_cases h1 : d = sentinelRequest
        · simp [makeAPIRequest, hl, hid, h1] at hcall
        · by_cases h2 : d = sentinelBlock
          · simp [makeAPIRequest, hl, hid, h1, h2, sentinelBlock_ne_request] at hcall
          · cases hdec : decodeStored d <;>
              simp [makeAPIRequest, hl, hid, h1, h2, hdec] at hcall
  rw [hhd] at hkv
  exact ((mem_removeProxyHeaders req.headers kv).1 hkv).2

/-- Witness for C8 amended (quantifiers instantiated at a concrete map). -/
theorem claim8_witness :
    (∀ kv ∈ removeProxyHeaders [("host", "h"), ("x", "y")], kv.1 ∉ proxyHeaderKeys) ∧
    (∀ kv ∈ [("host", "h"), ("x", "y")], kv.1 ∉ proxyHeaderKeys →
      kv ∈ removeProxyHeaders [("host", "h"), ("x", "y")]) ∧
    (∀ kv ∈ removeProxyHeaders [("host", "h"), ("x", "y")], kv ∈ [("host", "h"), ("x", "y")]) ∧
    (∀ (store : String → Option String) req body id fetch call,
      (makeAPIRequest store req body id fetch).fetchCall = some call →
      ∀ kv ∈ call.headers, kv.1 ∉ proxyHeaderKeys) :=
  claim8_amended [("host", "h"), ("x", "y")]

/-! ### Round trip: numbers -/

/-- The accumulator of `natToCharsAux` is a suffix of its output. -/
theorem natToCharsAux_acc (fuel : Nat) : ∀ n acc,
    natToCharsAux fuel n acc = natToCharsAux fuel n [] ++ acc := by
  induction fuel with
  | zero => intro n acc; rfl
  | succ f ihf =>
    intro n acc
    by_cases h10 : n < 10
    · simp [natToCharsAux, h10]
    · simp only [natToCharsAux, if_neg h10]
      rw [ihf (n / 10) (Nat.digitChar (n % 10) :: acc), ihf (n / 10) [Nat.digitChar (n % 10)]]
      simp

/-- Fact: `natToCharsAux` ignores extra fuel. -/
theorem natToCharsAux_fuel (n : Nat) : ∀ fuel fuel2 acc, n < fuel → n < fuel2 →
    natToCharsAux fuel n acc = natToCharsAux fuel2 n acc := by
  induction n using Nat.strong_induction_on with
  | _ n ih =>
    intro fuel fuel2 acc h1 h2
    cases fuel with
    | zero => omega
    | succ f =>
      cases fuel2 with
      | zero => omega
      | succ g =>
        by_cases h10 : n < 10
        · simp [natToCharsAux, h10]
        · have hdiv : n / 10 < n := Nat.div_lt_self (by omega) (by omega)
          simp only [natToCharsAux, if_neg h10]
          exact ih (n / 10) hdiv f g _ (by omega) (by omega)

/-- The defining recurrence of `natToChars`. -/
theorem natToChars_eq (n : Nat) :
    natToChars n = if n < 10 then [Nat.digitChar n]
      else natToChars (n / 10) ++ [Nat.digitChar (n % 10)] := by
  by_cases h10 : n < 10
  · simp [natToChars, natToCharsAux, h10]
  · have hdiv : n / 10 < n := Nat.div_lt_self (by omega) (by omega)
    rw [if_neg h10]
    show natToCharsAux (n + 1) n [] = _
    rw [show natToCharsAux (n + 1) n [] =
        natToCharsAux n (n / 10) [Nat.digitChar (n % 10)] from by
      simp [natToCharsAux, h10]]
    rw [natToCharsAux_acc,
      natToCharsAux_fuel (n / 10) n (n / 10 + 1) [] (by omega) (by omega)]
    rfl

/-- A decimal digit character is a digit. -/
theorem digitChar_isDigitC (d : Nat) (h : d < 10) : isDigitC (Nat.digitChar d) = true := by
  interval_cases d <;> decide

/-- Code point of a decimal digit character. -/
theorem digitChar_toNat (d : Nat) (h : d < 10) : (Nat.digitChar d).toNat = 48 + d := by
  interval_cases d <;> decide

/-- A nonzero digit does not print as `'0'`. -/
theorem digitChar_ne_zero (d : Nat) (h1 : d < 10) (h2 : d ≠ 0) : Nat.digitChar d ≠ '0' := by
  interval_cases d
  · exact absurd rfl h2
  all_goals decide

/-- Digit characters are none of the parser's structural characters. -/
theorem isDigitC_ne (c : Char) (h : isDigitC c = true) (d : Char)
    (hd : isDigitC d = false) : c ≠ d := by
  intro heq
  subst heq
  rw [h] at hd
  exact Bool.noConfusion hd

/-- A digit character is not whitespace. -/
theorem isDigitC_not_ws (c : Char) (h : isDigitC c = true) : wsChar c = false := by
  have hb : 48 ≤ c.toNat ∧ c.toNat ≤ 57 := by
    simpa [isDigitC, Bool.and_eq_true] using h
  have h1 : c ≠ ' ' := fun heq => by subst heq; exact absurd hb (by decide)
  have h2 : c ≠ '\t' := fun heq => by subst heq; exact absurd hb (by decide)
  have h3 : c ≠ '\n' := fun heq => by subst heq; exact absurd hb (by decide)
  have h4 : c ≠ '\r' := fun heq => by subst heq; exact absurd hb (by decide)
  simp [wsChar, h1, h2, h3, h4]

/-- Every character of `natToChars n` is a digit, the first is a digit,
and for positive `n` the first is not `'0'`. -/
theorem natToChars_shape (n : Nat) :
    ∃ c cs, natToChars n = c :: cs ∧ isDigitC c = true ∧ (0 < n → c ≠ '0') ∧
      (∀ d ∈ natToChars n, isDigitC d = true) := by
  induction n using Nat.strong_induction_on with
  | _ n ih =>
    rw [natToChars_eq]
    by_cases h : n < 10
    · rw [if_pos h]
      exact ⟨Nat.digitChar n, [], rfl, digitChar_isDigitC n h,
        fun hn => digitChar_ne_zero n h (by omega),
        by

          intro d hd
          rw [List.mem_singleton] at hd
          subst hd
          exact digitChar_isDigitC n h⟩
    · rw [if_neg h]
      obtain ⟨c, cs, heq, hdig, hz, hall⟩ := ih (n / 10) (Nat.div_lt_self (by omega) (by omega))
      refine ⟨c, cs ++ [Nat.digitChar (n % 10)], by rw [heq]; rfl, hdig,
        fun _ => hz (by omega), ?_⟩
      intro d hd
      rcases List.mem_append.1 hd with hd | hd
      · exact hall d hd
      · rw [List.mem_singleton] at hd
        subst hd
        exact digitChar_isDigitC _ (Nat.mod_lt _ (by omega))

/-- Folding a digit string after an append. -/
theorem digitsVal_append_singleton (ds : List Char) (c : Char) :
    digitsVal (ds ++ [c]) = 10 * digitsVal ds + (c.toNat - 48) := by
  simp [digitsVal, List.foldl_append]
  omega

/-- Fact: `digitsVal` inverts `natToChars`. -/
theorem digitsVal_natToChars (n : Nat) : digitsVal (natToChars n) = n := by
  induction n using Nat.strong_induction_on with
  | _ n ih =>
    rw [natToChars_eq]
    by_cases h : n < 10
    · rw [if_pos h]
      simp [digitsVal, digitChar_toNat n h]
    · rw [if_neg h]
      rw [digitsVal_append_singleton, ih (n / 10) (Nat.div_lt_self (by omega) (by omega)),
        digitChar_toNat (n % 10) (Nat.mod_lt _ (by omega))]
      omega

/-- Fact: `takeDigits` splits a digit run from a non-digit remainder. -/
theorem takeDigits_append (ds rest : List Char) (hds : ∀ c ∈ ds, isDigitC c = true)
    (hrest : notDigitStart rest) : takeDigits (ds ++ rest) = (ds, rest) := by
  induction ds with
  | nil =>
    cases rest with
    | nil => rfl
    | cons c t =>
      have : isDigitC c = false := hrest
      simp [takeDigits, this]
  | cons d ds ihds =>
    have hd : isDigitC d = true := hds d (by simp)
    have := ihds (fun c hc => hds c (by simp [hc]))
    simp [takeDigits, hd, this]

/-- Fact: `pIntDigits` inverts `natToChars`. -/
theorem pIntDigits_natToChars (n : Nat) (rest : List Char) (hrest : notDigitStart rest) :
    pIntDigits (natToChars n ++ rest) = some (n, rest) := by
  obtain ⟨c, cs, heq, hdig, hz, hall⟩ := natToChars_shape n
  by_cases hn : n = 0
  · subst hn
    have h0 : natToChars 0 = ['0'] := rfl
    rw [h0]
    cases rest with
    | nil => rfl
    | cons r t =>
      have : isDigitC r = false := hrest
      simp [pIntDigits, takeDigits, this, digitsVal]
  · have hcz : c ≠ '0' := hz (by omega)
    rw [heq, List.cons_append]
    have htake : takeDigits (cs ++ rest) = (cs, rest) := by
      refine takeDigits_append cs rest (fun d hd => hall d ?_) hrest
      rw [heq]
      exact List.mem_cons_of_mem c hd
    have hval : digitsVal (c :: cs) = n := by
      have := digitsVal_natToChars n
      rw [heq] at this
      exact this
    simp [pIntDigits, hcz, hdig, htake, hval]

/-- A delimiter head is inert for the number and whitespace machinery. -/
theorem delimOk_facts (rest : List Char) (h : delimOk rest) :
    notDigitStart rest ∧ rest.head? ≠ some '.' ∧
    rest.head? ≠ some 'e' ∧ rest.head? ≠ some 'E' := by
  cases rest with
  | nil => exact ⟨trivial, by simp, by simp, by simp⟩
  | cons c t =>
    rcases h with rfl | rfl | rfl
    · exact ⟨show isDigitC ',' = false by decide, by simp, by simp, by simp⟩
    · exact ⟨show isDigitC ']' = false by decide, by simp, by simp, by simp⟩
    · exact ⟨show isDigitC '\x7d' = false by decide, by simp, by simp, by simp⟩

/-- With a delimiter (or nothing) next, the exponent step is the
identity. -/
theorem pExpPart_delim (v : Int) (rest : List Char) (h : delimOk rest) :
    pExpPart v rest = some (.num v, rest) := by
  obtain ⟨-, -, he, hE⟩ := delimOk_facts rest h
  simp [pExpPart, he, hE]

/-- With a delimiter (or nothing) next, the fraction step is the
identity. -/
theorem pAfterInt_delim (v : Int) (rest : List Char) (h : delimOk rest) :
    pAfterInt v rest = some (.num v, rest) := by
  obtain ⟨-, hdot, -, -⟩ := delimOk_facts rest h
  simp [pAfterInt, hdot]
  exact pExpPart_delim v rest h

/-- Fact: `pNumber` inverts `natToChars`. -/
theorem pNumber_natToChars (n : Nat) (rest : List Char) (h : delimOk rest) :
    pNumber (natToChars n ++ rest) = some (.num n, rest) := by
  obtain ⟨c, cs, heq, hdig, -, -⟩ := natToChars_shape n
  have hnd : notDigitStart rest := (delimOk_facts rest h).1
  have hmin : c ≠ '-' := isDigitC_ne c hdig '-' (by decide)
  rw [heq, List.cons_append, pNumber, if_neg hmin, ← List.cons_append, ← heq,
    pIntDigits_natToChars n rest hnd]
  exact pAfterInt_delim _ rest h

/-- Fact: `pNumber` inverts `intToChars`. -/
theorem pNumber_intToChars (i : Int) (rest : List Char) (h : delimOk rest) :
    pNumber (intToChars i ++ rest) = some (.num i, rest) := by
  unfold intToChars
  by_cases hi : i < 0
  · rw [if_pos hi, List.cons_append, pNumber, if_pos rfl,
      pIntDigits_natToChars i.natAbs rest (delimOk_facts rest h).1]
    show pAfterInt (-(i.natAbs : Int)) rest = some (Json.num i, rest)
    rw [pAfterInt_delim _ rest h, show -(i.natAbs : Int) = i by omega]
  · rw [if_neg hi, pNumber_natToChars i.toNat rest h,
      show ((i.toNat : Nat) : Int) = i by omega]

/-! ### Round trip: strings and dispatch -/

/-- Skipping whitespace is the identity when the head is not whitespace. -/
theorem skipWs_cons (c : Char) (cs : List Char) (h : wsChar c = false) :
    skipWs (c :: cs) = c :: cs := by simp [skipWs, h]

/-- Every hexadecimal digit character decodes to its value. -/
theorem hexVal_digitChar (m : Nat) (h : m < 16) : hexVal (Nat.digitChar m) = some m := by
  interval_cases m <;> decide

/-- String-literal bodies round trip through `JSON.stringify` escaping. -/
theorem pStringBody_escChars (cs rest : List Char) :
    pStringBody (escChars cs ++ '"' :: rest) = some (cs, rest) := by
  induction cs with
  | nil => rfl
  | cons c cs ihcs =>
    rw [escChars, List.append_assoc]
    by_cases h1 : c = '"'
    · subst h1
      rw [show pStringBody (escapeChar '"' ++ (escChars cs ++ '"' :: rest)) =
          (pStringBody (escChars cs ++ '"' :: rest)).map (fun p => ('"' :: p.1, p.2)) from rfl,
        ihcs]
      rfl
    · by_cases h2 : c = '\\'
      · subst h2
        rw [show pStringBody (escapeChar '\\' ++ (escChars cs ++ '"' :: rest)) =
            (pStringBody (escChars cs ++ '"' :: rest)).map (fun p => ('\\' :: p.1, p.2)) from rfl,
          ihcs]
        rfl
      · by_cases h3 : c = '\x08'
        · subst h3
          rw [show pStringBody (escapeChar '\x08' ++ (escChars cs ++ '"' :: rest)) =
              (pStringBody (escChars cs ++ '"' :: rest)).map (fun p => ('\x08' :: p.1, p.2))
              from rfl, ihcs]
          rfl
        · by_cases h4 : c = '\t'
          · subst h4
            rw [show pStringBody (escapeChar '\t' ++ (escChars cs ++ '"' :: rest)) =
                (pStringBody (escChars cs ++ '"' :: rest)).map (fun p => ('\t' :: p.1, p.2))
                from rfl, ihcs]
            rfl
          · by_cases h5 : c = '\n'
            · subst h5
              rw [show pStringBody (escapeChar '\n' ++ (escChars cs ++ '"' :: rest)) =
                  (pStringBody (escChars cs ++ '"' :: rest)).map (fun p => ('\n' :: p.1, p.2))
                  from rfl, ihcs]
              rfl
            · by_cases h6 : c = '\x0c'
              · subst h6
                rw [show pStringBody (escapeChar '\x0c' ++ (escChars cs ++ '"' :: rest)) =
                    (pStringBody (escChars cs ++ '"' :: rest)).map (fun p => ('\x0c' :: p.1, p.2))
                    from rfl, ihcs]
                rfl
              · by_cases h7 : c = '\r'
                · subst h7
                  rw [show pStringBody (escapeChar '\r' ++ (escChars cs ++ '"' :: rest)) =
                      (pStringBody (escChars cs ++ '"' :: rest)).map (fun p => ('\r' :: p.1, p.2))
                      from rfl, ihcs]
                  rfl
                · by_cases h8 : c.toNat < 32
                  · have hesc : escapeChar c =
                        ['\\', 'u', '0', '0', Nat.digitChar (c.toNat / 16),
                          Nat.digitChar (c.toNat % 16)] := by
                      rw [escapeChar, if_neg h1, if_neg h2, if_neg h3, if_neg h4, if_neg h5,
                        if_neg h6, if_neg h7, if_pos h8]
                    rw [hesc]
                    simp only [List.cons_append, List.nil_append]
                    rw [show pStringBody ('\\' :: 'u' :: '0' :: '0' ::
                          Nat.digitChar (c.toNat / 16) :: Nat.digitChar (c.toNat % 16) ::
                          (escChars cs ++ '"' :: rest)) =
                        (match hexVal '0', hexVal '0', hexVal (Nat.digitChar (c.toNat / 16)),
                            hexVal (Nat.digitChar (c.toNat % 16)) with
                         | some a, some b, some c2, some d =>
                           (pStringBody (escChars cs ++ '"' :: rest)).map
                             (fun p =>
                               (Char.ofNat (((a * 16 + b) * 16 + c2) * 16 + d) :: p.1, p.2))
                         | _, _, _, _ => none) from rfl]
                    rw [hexVal_digitChar (c.toNat / 16) (by omega),
                      hexVal_digitChar (c.toNat % 16) (by omega)]
                    show (pStringBody (escChars cs ++ '"' :: rest)).map
                        (fun p => (Char.ofNat
                          (((0 * 16 + 0) * 16 + c.toNat / 16) * 16 + c.toNat % 16) :: p.1, p.2)) =
                      some (c :: cs, rest)
                    rw [show ((0 * 16 + 0) * 16 + c.toNat / 16) * 16 + c.toNat % 16 = c.toNat
                        from by omega, Char.ofNat_toNat, ihcs]
                    rfl
                  · have hesc : escapeChar c = [c] := by
                      rw [escapeChar, if_neg h1, if_neg h2, if_neg h3, if_neg h4, if_neg h5,
                        if_neg h6, if_neg h7, if_neg h8]
                    rw [hesc, List.singleton_append, pStringBody.eq_def]
                    dsimp only
                    rw [if_neg h1, if_neg h2, if_neg h8, ihcs]
                    rfl

/-- Every value's fuel requirement is positive. -/
theorem needFuel_pos (j : Json) : 1 ≤ needFuel j := by
  cases j <;> simp [needFuel]

/-- An integer's serialization starts with a digit or a minus sign. -/
theorem intToChars_shape (i : Int) :
    ∃ c cs, intToChars i = c :: cs ∧ (isDigitC c = true ∨ c = '-') := by
  unfold intToChars
  by_cases hi : i < 0
  · rw [if_pos hi]
    exact ⟨'-', _, rfl, Or.inr rfl⟩
  · rw [if_neg hi]
    obtain ⟨c, cs, heq, hdig, -, -⟩ := natToChars_shape i.toNat
    exact ⟨c, cs, heq, Or.inl hdig⟩

/-- A value's serialization starts with a non-whitespace character other
than `]`. -/
theorem stringifyChars_head (j : Json) :
    ∃ c cs, stringifyChars j = c :: cs ∧ wsChar c = false ∧ c ≠ ']' := by
  cases j with
  | null => exact ⟨'n', _, rfl, by decide, by decide⟩
  | bool b =>
    cases b
    · exact ⟨'f', _, rfl, by decide, by decide⟩
    · exact ⟨'t', _, rfl, by decide, by decide⟩
  | num i =>
    obtain ⟨c, cs, heq, hd⟩ := intToChars_shape i
    refine ⟨c, cs, by rw [show stringifyChars (.num i) = intToChars i from rfl, heq], ?_⟩
    rcases hd with hd | hd
    · exact ⟨isDigitC_not_ws c hd, isDigitC_ne c hd ']' (by decide)⟩
    · subst hd
      exact ⟨by decide, by decide⟩
  | str s => exact ⟨'"', _, rfl, by decide, by decide⟩
  | arr xs => exact ⟨'[', _, rfl, by decide, by decide⟩
  | obj fs => exact ⟨'\x7b', _, rfl, by decide, by decide⟩
  | buf bs => exact ⟨'\x7b', _, rfl, by decide, by decide⟩

/-- The serialization of a nonempty element list starts with its first
element's serialization. -/
theorem stringifyElems_decomp (x : Json) (xs : List Json) :
    ∃ t, stringifyElems (x :: xs) = stringifyChars x ++ t := by
  cases xs with
  | nil => exact ⟨[], (List.append_nil _).symm⟩
  | cons y ys => exact ⟨',' :: stringifyElems (y :: ys), rfl⟩

/-- Fact: `pValue` on an opening quote. -/
theorem pValue_quote (fuel : Nat) (cs1 : List Char) :
    pValue (fuel + 1) ('"' :: cs1) =
      (pStringBody cs1).map (fun p => (.str ⟨p.1⟩, p.2)) := rfl

/-- Fact: `pValue` on an opening bracket. -/
theorem pValue_lbracket (fuel : Nat) (cs1 : List Char) :
    pValue (fuel + 1) ('[' :: cs1) =
      (if (skipWs cs1).head? = some ']' then some (.arr [], (skipWs cs1).tail)
       else (pElems fuel (skipWs cs1)).map (fun p => (.arr p.1, p.2))) := rfl

/-- Fact: `pValue` on an opening brace. -/
theorem pValue_lbrace (fuel : Nat) (cs1 : List Char) :
    pValue (fuel + 1) ('\x7b' :: cs1) =
      (if (skipWs cs1).head? = some '\x7d' then some (.obj [], (skipWs cs1).tail)
       else (pMembers fuel (skipWs cs1)).map (fun p => (.obj p.1, p.2))) := rfl

/-- Fact: `pValue` on a minus sign. -/
theorem pValue_minus (fuel : Nat) (cs1 : List Char) :
    pValue (fuel + 1) ('-' :: cs1) = pNumber ('-' :: cs1) := rfl

/-- Fact: `pMembers` on an opening quote. -/
theorem pMembers_quote (fuel : Nat) (cs1 : List Char) :
    pMembers (fuel + 1) ('"' :: cs1) =
      (match pStringBody cs1 with
       | none => none
       | some (k, r1) =>
         if (skipWs r1).head? = some ':' then
           match pValue fuel (skipWs r1).tail with
           | none => none
           | some (v, r3) =>
             if (skipWs r3).head? = some ',' then
               (pMembers fuel (skipWs r3).tail).map (fun p => ((⟨k⟩, v) :: p.1, p.2))
             else if (skipWs r3).head? = some '\x7d' then some ([(⟨k⟩, v)], (skipWs r3).tail)
             else none
         else none) := rfl

/-- Fact: `pValue` on a digit. -/
theorem pValue_digit (fuel : Nat) (c : Char) (cs1 : List Char) (h : isDigitC c = true) :
    pValue (fuel + 1) (c :: cs1) = pNumber (c :: cs1) := by
  rw [pValue.eq_def]
  dsimp only
  rw [skipWs_cons c cs1 (isDigitC_not_ws c h)]
  dsimp only
  rw [if_neg (isDigitC_ne c h 'n' (by decide)), if_neg (isDigitC_ne c h 't' (by decide)),
    if_neg (isDigitC_ne c h 'f' (by decide)), if_neg (isDigitC_ne c h '"' (by decide)),
    if_neg (isDigitC_ne c h '[' (by decide)), if_neg (isDigitC_ne c h '\x7b' (by decide)),
    if_pos (Or.inr h)]

/-! ### Round trip: values, element lists, member lists -/

mutual

/-- Fact: `pValue` inverts `stringifyChars` on buf-free values, given enough fuel
and a delimiter (or nothing) next. -/
theorem pValue_stringify (j : Json) (hb : bufFree j) (fuel : Nat) (rest : List Char)
    (hf : needFuel j ≤ fuel + 1) (hr : delimOk rest) :
    pValue (fuel + 1) (stringifyChars j ++ rest) = some (j, rest) := by
  cases j with
  | null => rfl
  | bool b => cases b <;> rfl
  | num i =>
    obtain ⟨c, cs, heq, hd⟩ := intToChars_shape i
    rcases hd with hd | hd
    · rw [show stringifyChars (.num i) = intToChars i from rfl, heq, List.cons_append,
        pValue_digit fuel c (cs ++ rest) hd, ← List.cons_append, ← heq,
        pNumber_intToChars i rest hr]
    · subst hd
      rw [show stringifyChars (.num i) = intToChars i from rfl, heq, List.cons_append,
        pValue_minus fuel (cs ++ rest), ← List.cons_append, ← heq,
        pNumber_intToChars i rest hr]
  | str s =>
    rw [show stringifyChars (.str s) ++ rest = '"' :: ((escChars s.data ++ ['"']) ++ rest)
        from rfl, List.append_assoc, List.singleton_append, pValue_quote,
      pStringBody_escChars]
    rfl
  | arr xs =>
    cases xs with
    | nil => rfl
    | cons x xs2 =>
      have hbx : bufFree x ∧ bufFreeList xs2 := hb
      rw [show stringifyChars (.arr (x :: xs2)) ++ rest =
          '[' :: ((stringifyElems (x :: xs2) ++ [']']) ++ rest) from rfl,
        pValue_lbracket, List.append_assoc, List.singleton_append]
      obtain ⟨t, ht⟩ := stringifyElems_decomp x xs2
      obtain ⟨c0, cs0, heq0, hws0, hne0⟩ := stringifyChars_head x
      have hA : stringifyElems (x :: xs2) ++ ']' :: rest =
          c0 :: (cs0 ++ (t ++ ']' :: rest)) := by
        rw [ht, heq0]
        simp [List.append_assoc]
      rw [hA, skipWs_cons _ _ hws0,
        if_neg (by simp [hne0] : ¬ ((c0 :: (cs0 ++ (t ++ ']' :: rest))).head? = some ']')),
        ← hA]
      have hfe : needElems (x :: xs2) ≤ fuel := by
        have h1 : needFuel (.arr (x :: xs2)) = 1 + needElems (x :: xs2) := rfl
        omega
      rw [pElems_stringify (x :: xs2) hb fuel rest hfe (by simp) hr]
      rfl
  | obj fs =>
    cases fs with
    | nil => rfl
    | cons f fs2 =>
      obtain ⟨k, v⟩ := f
      have hbv : bufFree v ∧ bufFreeFields fs2 := hb
      rw [show stringifyChars (.obj ((k, v) :: fs2)) ++ rest =
          '\x7b' :: ((stringifyFields ((k, v) :: fs2) ++ ['\x7d']) ++ rest) from rfl,
        pValue_lbrace, List.append_assoc, List.singleton_append]
      have hA : ∃ w, stringifyFields ((k, v) :: fs2) ++ '\x7d' :: rest = '"' :: w := by
        cases fs2 with
        | nil =>
          exact ⟨escChars k.data ++ '"' :: (':' :: (stringifyChars v ++ '\x7d' :: rest)), by
            simp only [stringifyFields, strLitChars]
            simp [List.append_assoc]⟩
        | cons f3 fs3 =>
          exact ⟨escChars k.data ++ '"' ::
              (':' :: (stringifyChars v ++
                ',' :: (stringifyFields (f3 :: fs3) ++ '\x7d' :: rest))), by
            simp only [stringifyFields, strLitChars]
            simp [List.append_assoc]⟩
      obtain ⟨w, hw⟩ := hA
      rw [hw, skipWs_cons _ _ (by decide),
        if_neg (by simp : ¬ (('"' :: w).head? = some '\x7d')), ← hw]
      have hfm : needMembers ((k, v) :: fs2) ≤ fuel := by
        have h1 : needFuel (.obj ((k, v) :: fs2)) = 1 + needMembers ((k, v) :: fs2) := rfl
        omega
      rw [pMembers_stringify ((k, v) :: fs2) hb fuel rest hfm (by simp) hr]
      rfl
  | buf bs => exact hb.elim

/-- Fact: `pElems` inverts `stringifyElems` on nonempty buf-free lists. -/
theorem pElems_stringify (xs : List Json) (hb : bufFreeList xs) (fuel : Nat)
    (rest : List Char) (hf : needElems xs ≤ fuel) (hne : xs ≠ []) (hr : delimOk rest) :
    pElems fuel (stringifyElems xs ++ ']' :: rest) = some (xs, rest) := by
  cases xs with
  | nil => exact absurd rfl hne
  | cons x xs2 =>
    have hbx : bufFree x ∧ bufFreeList xs2 := hb
    have hpos := needFuel_pos x
    have hcount : needElems (x :: xs2) = 1 + needFuel x + needElems xs2 := rfl
    cases fuel with
    | zero => omega
    | succ f =>
      have hfx : needFuel x ≤ f := by omega
      obtain ⟨f2, rfl⟩ : ∃ f2, f = f2 + 1 := by
        cases f with
        | zero => omega
        | succ f2 => exact ⟨f2, rfl⟩
      cases xs2 with
      | nil =>
        rw [show stringifyElems [x] ++ ']' :: rest = stringifyChars x ++ ']' :: rest from rfl,
          pElems.eq_def]
        dsimp only
        rw [pValue_stringify x hbx.1 f2 (']' :: rest) (by omega) (Or.inr (Or.inl rfl))]
        rfl
      | cons y ys =>
        have hA : stringifyElems (x :: y :: ys) ++ ']' :: rest =
            stringifyChars x ++ (',' :: (stringifyElems (y :: ys) ++ ']' :: rest)) := by
          rw [show stringifyElems (x :: y :: ys) =
              stringifyChars x ++ ',' :: stringifyElems (y :: ys) from rfl]
          simp [List.append_assoc]
        rw [hA, pElems.eq_def]
        dsimp only
        rw [pValue_stringify x hbx.1 f2 (',' :: (stringifyElems (y :: ys) ++ ']' :: rest))
          (by omega) (Or.inl rfl)]
        show (pElems (f2 + 1) (stringifyElems (y :: ys) ++ ']' :: rest)).map
            (fun p => (x :: p.1, p.2)) = some (x :: y :: ys, rest)
        rw [pElems_stringify (y :: ys) hbx.2 (f2 + 1) rest (by omega) (by simp) hr]
        rfl

/-- Fact: `pMembers` inverts `stringifyFields` on nonempty buf-free field
lists. -/
theorem pMembers_stringify (fs : List (String × Json)) (hb : bufFreeFields fs) (fuel : Nat)
    (rest : List Char) (hf : needMembers fs ≤ fuel) (hne : fs ≠ []) (hr : delimOk rest) :
    pMembers fuel (stringifyFields fs ++ '\x7d' :: rest) = some (fs, rest) := by
  cases fs with
  | nil => exact absurd rfl hne
  | cons f fs2 =>
    obtain ⟨k, v⟩ := f
    have hbv : bufFree v ∧ bufFreeFields fs2 := hb
    have hpos := needFuel_pos v
    have hcount : needMembers ((k, v) :: fs2) = 1 + needFuel v + needMembers fs2 := rfl
    cases fuel with
    | zero => omega
    | succ f =>
      have hfv : needFuel v ≤ f := by omega
      obtain ⟨f2, rfl⟩ : ∃ f2, f = f2 + 1 := by
        cases f with
        | zero => omega
        | succ f2 => exact ⟨f2, rfl⟩
      cases fs2 with
      | nil =>
        have hA : stringifyFields [(k, v)] ++ '\x7d' :: rest =
            '"' :: (escChars k.data ++ '"' :: (':' :: (stringifyChars v ++ '\x7d' :: rest))) := by
          simp only [stringifyFields, strLitChars]
          simp [List.append_assoc]
        rw [hA, pMembers_quote, pStringBody_escChars]
        show (match pValue (f2 + 1) (stringifyChars v ++ '\x7d' :: rest) with
              | none => none
              | some (v2, r3) =>
                if (skipWs r3).head? = some ',' then
                  (pMembers (f2 + 1) (skipWs r3).tail).map
                    (fun p => ((⟨k.data⟩, v2) :: p.1, p.2))
                else if (skipWs r3).head? = some '\x7d' then
                  some ([(⟨k.data⟩, v2)], (skipWs r3).tail)
                else none) = some ([(k, v)], rest)
        rw [pValue_stringify v hbv.1 f2 ('\x7d' :: rest) (by omega) (Or.inr (Or.inr rfl))]
        rfl
      | cons f3 fs3 =>
        have hA : stringifyFields ((k, v) :: f3 :: fs3) ++ '\x7d' :: rest =
            '"' :: (escChars k.data ++ '"' ::
              (':' :: (stringifyChars v ++
                ',' :: (stringifyFields (f3 :: fs3) ++ '\x7d' :: rest)))) := by
          simp only [stringifyFields, strLitChars]
          simp [List.append_assoc]
        rw [hA, pMembers_quote, pStringBody_escChars]
        show (match pValue (f2 + 1) (stringifyChars v ++
                ',' :: (stringifyFields (f3 :: fs3) ++ '\x7d' :: rest)) with
              | none => none
              | some (v2, r3) =>
                if (skipWs r3).head? = some ',' then
                  (pMembers (f2 + 1) (skipWs r3).tail).map
                    (fun p => ((⟨k.data⟩, v2) :: p.1, p.2))
                else if (skipWs r3).head? = some '\x7d' then
                  some ([(⟨k.data⟩, v2)], (skipWs r3).tail)
                else none) = some ((k, v) :: f3 :: fs3, rest)
        rw [pValue_stringify v hbv.1 f2
          (',' :: (stringifyFields (f3 :: fs3) ++ '\x7d' :: rest)) (by omega) (Or.inl rfl)]
        show (pMembers (f2 + 1) (stringifyFields (f3 :: fs3) ++ '\x7d' :: rest)).map
            (fun p => ((⟨k.data⟩, v) :: p.1, p.2)) = some ((k, v) :: f3 :: fs3, rest)
        rw [pMembers_stringify (f3 :: fs3) hbv.2 (f2 + 1) rest (by omega) (by simp) hr]
        rfl

end

/-! ### Fuel adequacy: `jsonParse` always supplies enough fuel for a
serialized value. -/

mutual

/-- The fuel requirement is bounded by the serialization length. -/
theorem needFuel_le (j : Json) (hb : bufFree j) :
    needFuel j ≤ (stringifyChars j).length := by
  cases j with
  | null => decide
  | bool b => cases b <;> decide
  | num i =>
    obtain ⟨c, cs, heq, -⟩ := intToChars_shape i
    rw [show stringifyChars (.num i) = intToChars i from rfl, heq]
    simp [needFuel]
  | str s =>
    show needFuel (.str s) ≤ ('"' :: (escChars s.data ++ ['"'])).length
    simp [needFuel]
  | arr xs =>
    have h := needElems_le xs hb
    show 1 + needElems xs ≤ ('[' :: (stringifyElems xs ++ [']'])).length
    simp [List.length_append] at h ⊢
    omega
  | obj fs =>
    have h := needMembers_le fs hb
    show 1 + needMembers fs ≤ ('\x7b' :: (stringifyFields fs ++ ['\x7d'])).length
    simp [List.length_append] at h ⊢
    omega
  | buf bs => exact hb.elim

/-- Fuel bound for element lists. -/
theorem needElems_le (xs : List Json) (hb : bufFreeList xs) :
    needElems xs ≤ (stringifyElems xs).length + 1 := by
  cases xs with
  | nil => simp [needElems]
  | cons x xs2 =>
    have hbx : bufFree x ∧ bufFreeList xs2 := hb
    have hx := needFuel_le x hbx.1
    have hcount : needElems (x :: xs2) = 1 + needFuel x + needElems xs2 := rfl
    cases xs2 with
    | nil =>
      rw [show stringifyElems [x] = stringifyChars x from rfl]
      have h0 : needElems ([] : List Json) = 0 := rfl
      omega
    | cons y ys =>
      have hrest := needElems_le (y :: ys) hbx.2
      rw [show stringifyElems (x :: y :: ys) =
          stringifyChars x ++ ',' :: stringifyElems (y :: ys) from rfl]
      simp only [List.length_append, List.length_cons]
      omega

/-- Fuel bound for member lists. -/
theorem needMembers_le (fs : List (String × Json)) (hb : bufFreeFields fs) :
    needMembers fs ≤ (stringifyFields fs).length + 1 := by
  cases fs with
  | nil => simp [needMembers]
  | cons f fs2 =>
    obtain ⟨k, v⟩ := f
    have hbv : bufFree v ∧ bufFreeFields fs2 := hb
    have hv := needFuel_le v hbv.1
    have hcount : needMembers ((k, v) :: fs2) = 1 + needFuel v + needMembers fs2 := rfl
    cases fs2 with
    | nil =>
      rw [show stringifyFields [(k, v)] = strLitChars k ++ ':' :: stringifyChars v from rfl]
      have h0 : needMembers ([] : List (String × Json)) = 0 := rfl
      simp only [List.length_append, List.length_cons]
      omega
    | cons f3 fs3 =>
      have hrest := needMembers_le (f3 :: fs3) hbv.2
      rw [show stringifyFields ((k, v) :: f3 :: fs3) =
          (strLitChars k ++ ':' :: stringifyChars v) ++ ',' :: stringifyFields (f3 :: fs3)
          from rfl]
      simp only [List.length_append, List.length_cons]
      omega

end

/-! ### The wire form of a serialized Buffer and the reviver's action -/

/-- A nonnegative integer serializes through `natToChars`. -/
theorem intToChars_ofNat (b : Nat) : intToChars (b : Int) = natToChars b := by
  rw [intToChars, if_neg (by omega : ¬ ((b : Int) < 0))]
  norm_num

/-- Element serialization of a byte array. -/
theorem stringifyElems_numList (bs : List Nat) :
    stringifyElems (bs.map (fun b : Nat => Json.num (b : Int))) = numList bs := by
  induction bs with
  | nil => rfl
  | cons b bs2 ih =>
    cases bs2 with
    | nil =>
      show stringifyChars (Json.num (b : Int)) = natToChars b
      rw [show stringifyChars (Json.num (b : Int)) = intToChars (b : Int) from rfl,
        intToChars_ofNat]
    | cons b2 bs3 =>
      show stringifyChars (Json.num (b : Int)) ++
          ',' :: stringifyElems ((b2 :: bs3).map (fun b : Nat => Json.num (b : Int))) =
        natToChars b ++ ',' :: numList (b2 :: bs3)
      rw [show stringifyChars (Json.num (b : Int)) = intToChars (b : Int) from rfl,
        intToChars_ofNat, ih]

/-- Fact: `Buffer.toJSON` makes a `buf` serialize exactly like its wire
object. -/
theorem stringify_buf_wire (bs : List Nat) :
    stringifyChars (.buf bs) = stringifyChars (bufWire bs) := by
  rw [bufWire]
  simp only [stringifyChars, stringifyFields, List.append_eq]
  rw [stringifyElems_numList]
  simp [List.append_assoc]

/-- Fact: `revive` on a string. -/
theorem revive_str (s : String) : revive (.str s) = some (.str s) := rfl

/-- Fact: `revive` on an array. -/
theorem revive_arr (xs : List Json) : revive (.arr xs) = (reviveList xs).map .arr := rfl

/-- Fact: `revive` on an object: revive the members, then apply the Buffer
rule. -/
theorem revive_obj (fs : List (String × Json)) :
    revive (.obj fs) =
      (match reviveFields fs with
       | none => none
       | some fs2 =>
         match lookupLast "type" fs2 with
         | some (.str t) =>
           if t = "Buffer" then
             match lookupLast "data" fs2 with
             | some (.arr ds) => some (.buf (ds.map jsToByte))
             | some (.num i) => if i < 0 then none else some (.buf (List.replicate i.toNat 0))
             | some (.str s) => some (.buf (utf8Bytes s))
             | _ => none
           else some (.obj fs2)
         | _ => some (.obj fs2)) := rfl

/-- Reviving a member list field by field. -/
theorem reviveFields_cons (k : String) (v : Json) (fs : List (String × Json)) :
    reviveFields ((k, v) :: fs) =
      (match revive v with
       | none => none
       | some w => (reviveFields fs).map (fun ws => (k, w) :: ws)) := rfl

/-- Reviving string-valued members is the identity. -/
theorem reviveFields_strMap (hs : List (String × String)) :
    reviveFields (hs.map (fun kv => (kv.1, Json.str kv.2))) =
      some (hs.map (fun kv => (kv.1, Json.str kv.2))) := by
  induction hs with
  | nil => rfl
  | cons kv hs2 ih =>
    rw [List.map_cons, reviveFields_cons, revive_str, ih]
    rfl

/-- Reviving number elements is the identity. -/
theorem reviveList_numMap (bs : List Nat) :
    reviveList (bs.map (fun b : Nat => Json.num (b : Int))) = some (bs.map (fun b : Nat => Json.num (b : Int))) := by
  induction bs with
  | nil => rfl
  | cons b bs2 ih =>
    rw [List.map_cons,
      show reviveList (Json.num (b : Int) :: bs2.map (fun b : Nat => Json.num (b : Int))) =
        (reviveList (bs2.map (fun b : Nat => Json.num (b : Int)))).map
          (fun ys => Json.num (b : Int) :: ys) from rfl,
      ih]
    rfl

/-- A `type` property of a string-valued member map comes from the map. -/
theorem lookupLast_strMap (hs : List (String × String)) (t : Json)
    (h : lookupLast "type" (hs.map (fun kv => (kv.1, Json.str kv.2))) = some t) :
    ∃ v, ("type", v) ∈ hs ∧ t = Json.str v := by
  induction hs with
  | nil => exact Option.noConfusion h
  | cons kv hs2 ih =>
    obtain ⟨k1, v1⟩ := kv
    rw [List.map_cons, lookupLast] at h
    cases hrec : lookupLast "type" (hs2.map (fun kv => (kv.1, Json.str kv.2))) with
    | some w =>
      rw [hrec] at h
      have ht : lookupLast "type" (hs2.map (fun kv => (kv.1, Json.str kv.2))) = some t := by
        rw [hrec]
        exact h
      obtain ⟨v, hv, hw⟩ := ih ht
      exact ⟨v, List.mem_cons_of_mem _ hv, hw⟩
    | none =>
      rw [hrec] at h
      have h2 : (if k1 = "type" then some (Json.str v1) else none) = some t := h
      by_cases hk : k1 = "type"
      · subst hk
        rw [if_pos rfl] at h2
        exact ⟨v1, List.mem_cons_self _ _, (Option.some.inj h2).symm⟩
      · rw [if_neg hk] at h2
        exact Option.noConfusion h2

/-- String-valued member maps are buf-free. -/
theorem bufFreeFields_strMap (hs : List (String × String)) :
    bufFreeFields (hs.map (fun kv => (kv.1, Json.str kv.2))) := by
  induction hs with
  | nil => trivial
  | cons kv hs2 ih => exact ⟨trivial, ih⟩

/-- Number lists are buf-free. -/
theorem bufFreeList_numMap (bs : List Nat) :
    bufFreeList (bs.map (fun b : Nat => Json.num (b : Int))) := by
  induction bs with
  | nil => trivial
  | cons b bs2 ih => exact ⟨trivial, ih⟩

/-- The wire form of a payload is buf-free. -/
theorem bufFree_payloadWire (st : Int) (hs : List (String × String)) (bd : List Nat) :
    bufFree (payloadWire st hs bd) :=
  ⟨trivial, ⟨bufFreeFields_strMap hs, ⟨⟨trivial, ⟨bufFreeList_numMap bd, trivial⟩⟩, trivial⟩⟩⟩

/-- The reviver leaves a header object alone unless it contains the pair
`type: Buffer`. -/
theorem revive_headersObj (hs : List (String × String))
    (htype : ∀ v, ("type", v) ∈ hs → v ≠ "Buffer") :
    revive (Json.obj (hs.map (fun kv => (kv.1, Json.str kv.2)))) =
      some (Json.obj (hs.map (fun kv => (kv.1, Json.str kv.2)))) := by
  rw [revive_obj, reviveFields_strMap]
  dsimp only
  cases hl : lookupLast "type" (hs.map (fun kv => (kv.1, Json.str kv.2))) with
  | none => rfl
  | some t =>
    obtain ⟨v, hv, rfl⟩ := lookupLast_strMap hs t hl
    dsimp only
    rw [if_neg (htype v hv)]

/-- The reviver turns the wire form of a Buffer back into the Buffer. -/
theorem revive_bufWire (bd : List Nat) (hbytes : ∀ b ∈ bd, b < 256) :
    revive (bufWire bd) = some (.buf bd) := by
  rw [bufWire, revive_obj, reviveFields_cons, revive_str]
  try dsimp only [Option.map]
  rw [reviveFields_cons, revive_arr, reviveList_numMap]
  try dsimp only [Option.map]
  rw [show reviveFields ([] : List (String × Json)) = some [] from rfl]
  try dsimp only [Option.map]
  rw [show lookupLast "type" [("type", Json.str "Buffer"),
      ("data", Json.arr (bd.map (fun b : Nat => Json.num (b : Int))))] =
      some (Json.str "Buffer") from by simp [lookupLast]]
  try dsimp only [Option.map]
  rw [if_pos rfl,
    show lookupLast "data" [("type", Json.str "Buffer"),
      ("data", Json.arr (bd.map (fun b : Nat => Json.num (b : Int))))] =
      some (Json.arr (bd.map (fun b : Nat => Json.num (b : Int)))) from by simp [lookupLast]]
  try dsimp only [Option.map]
  congr 2
  rw [List.map_map]
  have : ∀ b ∈ bd, (jsToByte ∘ fun b : Nat => Json.num (b : Int)) b = id b := by
    intro b hb
    have hb2 := hbytes b hb
    show (((b : Int)) % 256).toNat = b
    omega
  rw [List.map_congr_left this, List.map_id]

/-- The reviver recovers a payload from its wire form. -/
theorem revive_payloadWire (st : Int) (hs : List (String × String)) (bd : List Nat)
    (hbytes : ∀ b ∈ bd, b < 256)
    (htype : ∀ v, ("type", v) ∈ hs → v ≠ "Buffer") :
    revive (payloadWire st hs bd) = some (payloadJson st hs bd) := by
  rw [payloadWire, revive_obj, reviveFields_cons,
    show revive (Json.num st) = some (Json.num st) from rfl]
  try dsimp only [Option.map]
  rw [reviveFields_cons, revive_headersObj hs htype]
  try dsimp only [Option.map]
  rw [reviveFields_cons, revive_bufWire bd hbytes]
  try dsimp only [Option.map]
  rw [show reviveFields ([] : List (String × Json)) = some [] from rfl]
  try dsimp only [Option.map]
  rw [show lookupLast "type" [("statusCode", Json.num st),
      ("headers", Json.obj (hs.map (fun kv => (kv.1, Json.str kv.2)))),
      ("content", Json.buf bd)] = none from by simp [lookupLast]]
  rfl

/-- Decoding inverts serialization for every payload whose body is bytes
and whose headers do not contain the pair `type: Buffer`. -/
theorem decodeStored_payload (st : Int) (hs : List (String × String)) (bd : List Nat)
    (hbytes : ∀ b ∈ bd, b < 256)
    (htype : ∀ v, ("type", v) ∈ hs → v ≠ "Buffer") :
    decodeStored (Json.stringify (payloadJson st hs bd)) = some (payloadJson st hs bd) := by
  have hchars : stringifyChars (payloadJson st hs bd) =
      stringifyChars (payloadWire st hs bd) := by
    rw [payloadJson, payloadWire]
    show '\x7b' :: (stringifyFields [("statusCode", Json.num st),
        ("headers", Json.obj (hs.map (fun kv => (kv.1, Json.str kv.2)))),
        ("content", Json.buf bd)] ++ ['\x7d']) =
      '\x7b' :: (stringifyFields [("statusCode", Json.num st),
        ("headers", Json.obj (hs.map (fun kv => (kv.1, Json.str kv.2)))),
        ("content", bufWire bd)] ++ ['\x7d'])
    simp only [stringifyFields]
    rw [stringify_buf_wire]
  have hbf := bufFree_payloadWire st hs bd
  have hfuel := needFuel_le (payloadWire st hs bd) hbf
  have hparse : pValue ((stringifyChars (payloadWire st hs bd)).length + 1)
      (stringifyChars (payloadWire st hs bd) ++ []) =
      some (payloadWire st hs bd, []) :=
    pValue_stringify (payloadWire st hs bd) hbf _ [] (by omega) trivial
  rw [List.append_nil] at hparse
  have hjson : jsonParse (Json.stringify (payloadJson st hs bd)) =
      some (payloadWire st hs bd) := by
    show (match pValue ((stringifyChars (payloadJson st hs bd)).length + 1)
          (stringifyChars (payloadJson st hs bd)) with
        | some (j, rest) => if skipWs rest = [] then some j else none
        | none => none) = some (payloadWire st hs bd)
    rw [hchars, hparse]
    rfl
  show (match jsonParse (Json.stringify (payloadJson st hs bd)) with
      | none => none
      | some j => revive j) = some (payloadJson st hs bd)
  rw [hjson]
  exact revive_payloadWire st hs bd hbytes htype

/-- Witness for C4: a stored, validly encoded payload is served from the
store. -/
theorem claim4_witness :
    (storeWith "k" (Json.stringify (payloadJson 200 [("x", "y")] [7])) lockKey ≠ some "true") ∧
    storeWith "k" (Json.stringify (payloadJson 200 [("x", "y")] [7])) "k" =
      some (Json.stringify (payloadJson 200 [("x", "y")] [7])) ∧
    decodeStored (Json.stringify (payloadJson 200 [("x", "y")] [7])) =
      some (payloadJson 200 [("x", "y")] [7]) ∧
    makeAPIRequest (storeWith "k" (Json.stringify (payloadJson 200 [("x", "y")] [7])))
        reqSample [] "k" .failure =
      ⟨.ok (payloadJson 200 [("x", "y")] [7]), [lockKey, "k"], [], none⟩ :=
  ⟨by decide, rfl, rfl,
   claim4 (storeWith "k" (Json.stringify (payloadJson 200 [("x", "y")] [7])))
     reqSample [] "k" .failure (Json.stringify (payloadJson 200 [("x", "y")] [7]))
     200 [("x", "y")] [7] (by decide) rfl rfl⟩

/-- C7 counterexample: a successful fetch whose origin response carries the
header `type: Buffer` serializes to a stored string on which the decode
throws (`new Buffer(undefined)`), so the round trip fails entirely. -/
theorem claim7_counterexample :
    decodeStored (Json.stringify (cacheJson ⟨200, [("type", "Buffer")], []⟩)) = none ∧
    decodeStored (Json.stringify (cacheJson ⟨200, [("type", "Buffer")], []⟩)) ≠
      some (cacheJson ⟨200, [("type", "Buffer")], []⟩) := by
  have h : decodeStored (Json.stringify (cacheJson ⟨200, [("type", "Buffer")], []⟩)) =
      none := rfl
  refine ⟨h, ?_⟩
  rw [h]
  exact fun hc => Option.noConfusion hc

/-- C7 amended: for every successful fetch whose body is bytes and whose
sanitized headers do not contain the pair `type: Buffer`, serializing the
result and immediately decoding it yields the identical status, sanitized
headers and body. -/
theorem claim7_amended (rr : FetchResult)
    (hbytes : ∀ b ∈ rr.body, b < 256)
    (htype : ∀ v, ("type", v) ∈ removeProxyHeaders rr.headers → v ≠ "Buffer") :
    decodeStored (Json.stringify (cacheJson rr)) = some (cacheJson rr) :=
  decodeStored_payload rr.statusCode (removeProxyHeaders rr.headers) rr.body hbytes htype

/-- Witness for C7 amended at a concrete fetch result. -/
theorem claim7_witness :
    decodeStored (Json.stringify
        (cacheJson ⟨404, [("content-type", "text/html"), ("x", "y")], [7, 255, 0]⟩)) =
      some (cacheJson ⟨404, [("content-type", "text/html"), ("x", "y")], [7, 255, 0]⟩) :=
  claim7_amended ⟨404, [("content-type", "text/html"), ("x", "y")], [7, 255, 0]⟩
    (by decide) (by intro v hv; simp [removeProxyHeaders, proxyHeaderKeys] at hv)

/-- C9: every value the coordinator writes is a sentinel or the JSON
serialization of the payload object, which begins with a brace and so can
never equal either sentinel; a stored serialized payload is interpreted as
READY (never as PENDING or BLOCKED) by a later request. -/
theorem claim9 (rr : FetchResult) :
    (∀ (store : String → Option String) (req : ReqInfo) (body : List Nat) (id : String)
        (fetch : FetchOutcome) (kv : String × String),
      kv ∈ (makeAPIRequest store req body id fetch).writes →
      kv.2 = sentinelRequest ∨ kv.2 = sentinelBlock ∨
        ∃ rr2, fetch = .success rr2 ∧ kv.2 = Json.stringify (cacheJson rr2)) ∧
    (Json.stringify (cacheJson rr)).data.head? = some '\x7b' ∧
    Json.stringify (cacheJson rr) ≠ sentinelRequest ∧
    Json.stringify (cacheJson rr) ≠ sentinelBlock ∧
    (∀ (store : String → Option String) (req : ReqInfo) (body : List Nat) (id : String)
        (fetch : FetchOutcome),
      store lockKey ≠ some "true" →
      store id = some (Json.stringify (cacheJson rr)) →
      makeAPIRequest store req body id fetch =
        ⟨(match decodeStored (Json.stringify (cacheJson rr)) with
          | some j => Except.ok j
          | none => Except.error APIError.gone), [lockKey, id], [], none⟩ ∧
      (makeAPIRequest store req body id fetch).result ≠ .error .unavailable) := by
  have hne1 : Json.stringify (cacheJson rr) ≠ sentinelRequest := by
    intro heq
    have h2 : sentinelRequest.data.head? = some '\x7b' := by
      rw [← heq]
      rfl
    exact absurd h2 (by decide)
  have hne2 : Json.stringify (cacheJson rr) ≠ sentinelBlock := by
    intro heq
    have h2 : sentinelBlock.data.head? = some '\x7b' := by
      rw [← heq]
      rfl
    exact absurd h2 (by decide)
  refine ⟨?_, rfl, hne1, hne2, ?_⟩
  · intro store req body id fetch kv hkv
    by_cases hl : store lockKey = some "true"
    · simp [makeAPIRequest, hl] at hkv
    · cases hid : store id with
      | none =>
        cases fetch with
        | success rr2 =>
          simp [makeAPIRequest, hl, hid] at hkv
          rcases hkv with hkv | hkv
          · rw [hkv]
            exact Or.inl rfl
          · rw [hkv]
            exact Or.inr (Or.inr ⟨rr2, rfl, rfl⟩)
        | failure =>
          simp [makeAPIRequest, hl, hid] at hkv
          rcases hkv with hkv | hkv
          · rw [hkv]
            exact Or.inl rfl
          · rw [hkv]
            exact Or.inr (Or.inl rfl)
      | some d =>
        by_cases h1 : d = sentinelRequest
        · simp [makeAPIRequest, hl, hid, h1] at hkv
        · by_cases h2 : d = sentinelBlock
          · simp [makeAPIRequest, hl, hid, h1, h2, sentinelBlock_ne_request] at hkv
          · cases hdd : decodeStored d <;>
              simp [makeAPIRequest, hl, hid, h1, h2, hdd] at hkv
  · intro store req body id fetch hlock hid
    cases hdd : decodeStored (Json.stringify (cacheJson rr)) <;>
      simp [makeAPIRequest, hlock, hid, hne1, hne2, hdd]

/-- Witness for C9 at a concrete fetch result and store. -/
theorem claim9_witness :
    Json.stringify (cacheJson ⟨200, [("x", "y")], [7, 255]⟩) ≠ sentinelRequest ∧
    Json.stringify (cacheJson ⟨200, [("x", "y")], [7, 255]⟩) ≠ sentinelBlock ∧
    makeAPIRequest
        (storeWith "k" (Json.stringify (cacheJson ⟨200, [("x", "y")], [7, 255]⟩)))
        reqSample [] "k" .failure =
      ⟨(match decodeStored (Json.stringify (cacheJson ⟨200, [("x", "y")], [7, 255]⟩)) with
        | some j => Except.ok j
        | none => Except.error APIError.gone), [lockKey, "k"], [], none⟩ :=
  ⟨(claim9 ⟨200, [("x", "y")], [7, 255]⟩).2.2.1,
   (claim9 ⟨200, [("x", "y")], [7, 255]⟩).2.2.2.1,
   ((claim9 ⟨200, [("x", "y")], [7, 255]⟩).2.2.2.2
     (storeWith "k" (Json.stringify (cacheJson ⟨200, [("x", "y")], [7, 255]⟩)))
     reqSample [] "k" .failure (by decide) rfl).1⟩

end Kcsp
